import Mathlib

/-!
Verification development for the flight-logbook application core:
the local flight store (`src/store/useFlightStore.ts`, `src/utils/flightUtils.ts`),
the remote sync adapter (`SupabaseService` in `src/services/supabase.service.ts`)
and the sync coordinator hook (`src/hooks/useSupabaseSync.ts`).

The TypeScript code is shallowly embedded: JS strings are Lean `String`s
(operated on through their character lists), JS numbers used by the code are
`Int`/`Nat`, `undefined`/`null` is `Option`, thrown exceptions are `Except`,
and the remote datastore table is a `List` of rows.  `Array.prototype.sort`
(stable since ES2019) is modelled by `List.insertionSort`, which performs the
same stable insertion discipline as the comparator-based sort.
-/

/-! ## JS string primitives -/

/-- JS `String.prototype.trim`: drop whitespace from both ends. -/
def jsTrim (s : String) : String :=
  ⟨((s.data.dropWhile Char.isWhitespace).reverse.dropWhile Char.isWhitespace).reverse⟩

/-- JS `String.prototype.toUpperCase` (ASCII fragment). -/
def jsUpper (s : String) : String := ⟨s.data.map Char.toUpper⟩

/-- JS `String.prototype.toLowerCase` (ASCII fragment). -/
def jsLower (s : String) : String := ⟨s.data.map Char.toLower⟩

/-- Does `hay` start with `needle`? (helper for the substring test). -/
def charsStart : List Char → List Char → Bool
  | _, [] => true
  | [], _ :: _ => false
  | h :: hs, n :: ns => h = n && charsStart hs ns

/-- JS `String.prototype.includes`, on character lists. -/
def charsHasSub : List Char → List Char → Bool
  | [], needle => charsStart [] needle
  | h :: t, needle => charsStart (h :: t) needle || charsHasSub t needle

/-- JS `hay.includes(needle)`. -/
def jsIncludes (hay needle : String) : Bool := charsHasSub hay.data needle.data

/-- Decimal digit characters. -/
def digitVal (c : Char) : Nat := c.toNat - '0'.toNat

/-- Parse a run of leading decimal digits; returns the value and whether at
least one digit was consumed. -/
def takeDigits : List Char → Nat → Bool → Option Nat
  | [], acc, seen => if seen then some acc else none
  | c :: cs, acc, seen =>
    if c.isDigit then takeDigits cs (acc * 10 + digitVal c) true
    else if seen then some acc else none

/-- JS `parseInt(s, 10)`: skip leading whitespace, optional sign, then the
longest run of leading decimal digits; `none` is `NaN` (no digit found). -/
def parseIntJS (s : String) : Option Int :=
  match s.data.dropWhile Char.isWhitespace with
  | '-' :: rest => (takeDigits rest 0 false).map (fun n => -(n : Int))
  | '+' :: rest => (takeDigits rest 0 false).map (fun n => (n : Int))
  | rest => (takeDigits rest 0 false).map (fun n => (n : Int))

/-- Days in a month, with the Gregorian leap-year rule (ES `Date` semantics
for the ISO `YYYY-MM-DD` format). -/
def daysInMonth (y m : Nat) : Nat :=
  if m = 2 then
    if y % 4 = 0 && (y % 100 ≠ 0 || y % 400 = 0) then 29 else 28
  else if m = 4 || m = 6 || m = 9 || m = 11 then 30
  else 31

/-- Strictly monotone (in calendar order) encoding of a calendar date into an
integer timestamp; stands for `Date.getTime()` at day granularity. -/
def encodeDate (y m d : Nat) : Int := (y : Int) * 1000 + (m : Int) * 50 + (d : Int)

/-- JS `new Date(s).getTime()` for the date-only ISO format `YYYY-MM-DD`
produced by the app's date input; every other string is an invalid date
(`NaN`, modelled as `none`). -/
def parseDateJS (s : String) : Option Int :=
  match s.data with
  | [y1, y2, y3, y4, '-', m1, m2, '-', d1, d2] =>
    if y1.isDigit && y2.isDigit && y3.isDigit && y4.isDigit &&
       m1.isDigit && m2.isDigit && d1.isDigit && d2.isDigit then
      let y := digitVal y1 * 1000 + digitVal y2 * 100 + digitVal y3 * 10 + digitVal y4
      let m := digitVal m1 * 10 + digitVal m2
      let d := digitVal d1 * 10 + digitVal d2
      if 1 ≤ m && m ≤ 12 && 1 ≤ d && d ≤ daysInMonth y m then
        some (encodeDate y m d)
      else none
    else none
  | _ => none

/-- JS `Array.prototype.join(', ')`. -/
def joinComma (l : List String) : String := String.intercalate ", " l

/-! ## Record model (`src/types/index.ts`) -/

/-- `FlightClass` enum. -/
inductive FlightClass where
  | economy | premium_economy | business | first
deriving DecidableEq, Repr

/-- String stored on the wire for a class value (`FlightClass.toString()`). -/
def FlightClass.str : FlightClass → String
  | .economy => "economy"
  | .premium_economy => "premium_economy"
  | .business => "business"
  | .first => "first"

/-- The local canonical record (`Flight` in `src/types/index.ts`).  Optional
TS fields are `Option`; the `class` field is called `cls` (`class` is a Lean
keyword). -/
structure Flight where
  id : String
  date : String
  airline : String
  flightNumber : String
  origin : String
  destination : String
  aircraft : Option String := none
  registration : Option String := none
  seat : Option String := none
  distance : Option Int := none
  duration : Option String := none
  cls : Option FlightClass := none
  reason : Option String := none
  note : Option String := none
  created_at : String := ""
  updated_at : Option String := none
deriving DecidableEq, Repr

/-- Form input (`FlightFormData`): every field is the raw form string; the
class select may be absent at runtime (the hooks guard it with `|| 'economy'`),
so it is an `Option`. -/
structure FlightFormData where
  date : String
  airline : String
  flightNumber : String
  origin : String
  destination : String
  aircraft : String := ""
  registration : String := ""
  seat : String := ""
  distance : String := ""
  duration : String := ""
  cls : Option FlightClass := none
  note : String := ""
deriving DecidableEq, Repr

/-! ## Validators (`validateFlightData`, identical in
`src/utils/flightUtils.ts` and `src/store/useFlightStore.ts`).
`today` stands for the local clock's midnight timestamp
(`new Date()` with hours zeroed). -/

def msgOriginRequired : String := "Город вылета обязателен"
def msgDestinationRequired : String := "Город назначения обязателен"
def msgDateRequired : String := "Дата перелета обязательна"
def msgAirlineRequired : String := "Авиакомпания обязательна"
def msgFlightNumberRequired : String := "Номер рейса обязателен"
def msgDateFuture : String := "Дата перелета не может быть в будущем"
def msgDistanceInvalid : String := "Дистанция должна быть положительным числом"

/-- The future-date test of the validator: `new Date(date) > today`.  An
invalid date compares as `NaN > today`, which is `false` in JS. -/
def dateIsFuture (today : Int) (date : String) : Bool :=
  match parseDateJS date with
  | some t => today < t
  | none => false

/-- The distance test of the validator: `isNaN(n) || n < 0` for
`n = parseInt(distance, 10)`. -/
def distanceIsInvalid (distance : String) : Bool :=
  match parseIntJS distance with
  | some n => n < 0
  | none => true

/-- `validateFlightData(flightData)`: collects all rule violations, in
evaluation order, exactly as the source pushes them. -/
def validateFlightData (today : Int) (f : FlightFormData) : List String :=
  (if jsTrim f.origin = "" then [msgOriginRequired] else []) ++
  (if jsTrim f.destination = "" then [msgDestinationRequired] else []) ++
  (if f.date = "" then [msgDateRequired] else []) ++
  (if jsTrim f.airline = "" then [msgAirlineRequired] else []) ++
  (if jsTrim f.flightNumber = "" then [msgFlightNumberRequired] else []) ++
  (if f.date ≠ "" && dateIsFuture today f.date then [msgDateFuture] else []) ++
  (if f.distance ≠ "" && distanceIsInvalid f.distance then [msgDistanceInvalid] else [])

/-- `s.trim() || undefined`: an empty trimmed string maps to absent. -/
def optTrim (s : String) : Option String :=
  let t := jsTrim s
  if t = "" then none else some t

/-- `s.trim()?.toUpperCase() || undefined`. -/
def optTrimUpper (s : String) : Option String :=
  let t := jsUpper (jsTrim s)
  if t = "" then none else some t

/-- `convertFormToFlight(flightData)` (`src/utils/flightUtils.ts`): trims all
string fields, uppercases the flight number / registration / seat, converts
the distance text (`flightData.distance ? parseInt(...) : undefined`), copies
the class as-is and stamps `updated_at = now`.  `id`/`created_at` are filled
in by the caller. -/
def convertFormToFlight (now : String) (f : FlightFormData) : Flight :=
  { id := ""
    date := f.date
    airline := jsTrim f.airline
    flightNumber := jsUpper (jsTrim f.flightNumber)
    origin := jsTrim f.origin
    destination := jsTrim f.destination
    aircraft := optTrim f.aircraft
    registration := optTrimUpper f.registration
    seat := optTrimUpper f.seat
    distance := if f.distance = "" then none else parseIntJS f.distance
    duration := optTrim f.duration
    cls := f.cls
    note := optTrim f.note
    created_at := ""
    updated_at := some now }

/-! ## Local store (`src/store/useFlightStore.ts`) -/

/-- `Partial<Flight>` as passed to `updateFlight`: a field set to `some v`
stands for a key present in the update object (for fields that are themselves
optional in `Flight`, the inner `Option` is the field's value). -/
structure FlightUpdate where
  id : Option String := none
  date : Option String := none
  airline : Option String := none
  flightNumber : Option String := none
  origin : Option String := none
  destination : Option String := none
  aircraft : Option (Option String) := none
  registration : Option (Option String) := none
  seat : Option (Option String) := none
  distance : Option (Option Int) := none
  duration : Option (Option String) := none
  cls : Option (Option FlightClass) := none
  reason : Option (Option String) := none
  note : Option (Option String) := none
  created_at : Option String := none
deriving DecidableEq, Repr

/-- `{ ...flight, ...updates, updated_at: now }`: spread merge; `updated_at`
is always overwritten with `now`. -/
def mergeFlight (f : Flight) (u : FlightUpdate) (now : String) : Flight :=
  { id := u.id.getD f.id
    date := u.date.getD f.date
    airline := u.airline.getD f.airline
    flightNumber := u.flightNumber.getD f.flightNumber
    origin := u.origin.getD f.origin
    destination := u.destination.getD f.destination
    aircraft := u.aircraft.getD f.aircraft
    registration := u.registration.getD f.registration
    seat := u.seat.getD f.seat
    distance := u.distance.getD f.distance
    duration := u.duration.getD f.duration
    cls := u.cls.getD f.cls
    reason := u.reason.getD f.reason
    note := u.note.getD f.note
    created_at := u.created_at.getD f.created_at
    updated_at := some now }

/-- Sort keys of `FlightFilters.sortBy`. -/
inductive SortKey where
  | date | distance | airline | created_at
deriving DecidableEq, Repr

/-- Sort orders of `FlightFilters.sortOrder`. -/
inductive SortOrder where
  | asc | desc
deriving DecidableEq, Repr

/-- `FlightFilters`. -/
structure FlightFilters where
  search : Option String := none
  airline : Option String := none
  dateFrom : Option String := none
  dateTo : Option String := none
  minDistance : Option Int := none
  maxDistance : Option Int := none
  cls : Option FlightClass := none
  sortBy : Option SortKey := none
  sortOrder : Option SortOrder := none
deriving DecidableEq, Repr

/-- The zustand store state (persisted part plus transient flags). -/
structure StoreState where
  flights : List Flight := []
  isLoading : Bool := false
  error : Option String := none
  filters : FlightFilters := { sortBy := some .date, sortOrder := some .desc }
  selectedFlight : Option Flight := none
deriving Repr

/-- `addFlight(flightData)`: validate (throwing the joined message list on
failure, with the collection untouched), normalize, assign the generated id
and `created_at = now`, append.  `newId` stands for the `generateFlightId()`
result, `now` for `new Date().toISOString()`, `today` for the validator's
midnight clock. -/
def addFlight (st : StoreState) (f : FlightFormData) (newId now : String)
    (today : Int) : StoreState × Except String Unit :=
  let errs := validateFlightData today f
  if errs ≠ [] then
    ({ st with isLoading := false, error := some (joinComma errs) },
     .error (joinComma errs))
  else
    let newFlight := { convertFormToFlight now f with id := newId, created_at := now }
    ({ st with flights := st.flights ++ [newFlight], isLoading := false,
               error := none },
     .ok ())

/-- `updateFlight(id, updates)`: maps the merge over the collection; an absent
id silently matches nothing (the source never raises a not-found error). -/
def updateFlight (st : StoreState) (id : String) (u : FlightUpdate)
    (now : String) : StoreState × Except String Unit :=
  let flights' := st.flights.map (fun f => if f.id = id then mergeFlight f u now else f)
  let sel' := match st.selectedFlight with
    | some s => if s.id = id then some (mergeFlight s u now) else some s
    | none => none
  ({ st with flights := flights', selectedFlight := sel', isLoading := false,
             error := none },
   .ok ())

/-- `deleteFlight(id)`: physical removal, idempotent; clears the selection if
it pointed at the removed id. -/
def deleteFlight (st : StoreState) (id : String) : StoreState × Except String Unit :=
  let sel' := match st.selectedFlight with
    | some s => if s.id = id then none else some s
    | none => none
  ({ st with flights := st.flights.filter (fun f => f.id ≠ id),
             selectedFlight := sel', isLoading := false, error := none },
   .ok ())

/-- `clearFlights()`: empties the collection only when the user confirmed. -/
def clearFlights (st : StoreState) (confirmed : Bool) : StoreState :=
  if confirmed then
    { st with flights := [], selectedFlight := none, error := none }
  else st

/-! ## Statistics (`calculateStatistics`) -/

/-- One step of the `airlineCounts` accumulation: bump the count of a key in
the object, appending it on first encounter.  This list records the object's
property-insertion history; the enumeration order of `Object.entries` is
derived from it by `objectEntries` below. -/
def bumpCount (acc : List (String × Nat)) (a : String) : List (String × Nat) :=
  if acc.any (fun p => p.1 = a) then
    acc.map (fun p => if p.1 = a then (p.1, p.2 + 1) else p)
  else acc ++ [(a, 1)]

/-- One flight's contribution to `airlineCounts`: records with a falsy
(empty) airline are skipped by the `if (flight.airline)` guard. -/
def countStep (acc : List (String × Nat)) (f : Flight) : List (String × Nat) :=
  if f.airline = "" then acc else bumpCount acc f.airline

/-- `flights.reduce(...)` building the `airlineCounts` object as an assoc
list in key-insertion order (the object's internal insertion history). -/
def airlineCounts (fs : List Flight) : List (String × Nat) :=
  fs.foldl countStep []

/-- Numeric value of a digit string (used for the ECMAScript array-index key
order). -/
def keyNatVal (s : String) : Nat :=
  s.data.foldl (fun acc c => acc * 10 + digitVal c) 0

/-- Is the string a canonical ECMAScript array index: the decimal rendering
(no leading zero except `"0"` itself) of an integer `0 ≤ n < 2^32 - 1`?
Such property keys are enumerated before all other string keys. -/
def isArrayIndexKey (s : String) : Bool :=
  match s.data with
  | [] => false
  | c :: cs =>
    (c :: cs).all Char.isDigit && (c ≠ '0' || cs.isEmpty) &&
    keyNatVal s < 4294967295

/-- ECMAScript `Object.entries` enumeration order over the insertion-history
assoc list (`OrdinaryOwnPropertyKeys`): array-index keys first, in ascending
numeric order, then the remaining string keys in insertion order. -/
def objectEntries (l : List (String × Nat)) : List (String × Nat) :=
  (l.filter (fun p => isArrayIndexKey p.1)).insertionSort
    (fun p q => keyNatVal p.1 ≤ keyNatVal q.1) ++
  l.filter (fun p => ! isArrayIndexKey p.1)

/-- Stable descending sort by count, modelling
`.sort((a, b) => b.count - a.count)` (stable `Array.sort`). -/
def sortCountsDesc (cs : List (String × Nat)) : List (String × Nat) :=
  cs.insertionSort (fun p q => q.2 ≤ p.2)

/-- The filter `f.distance && f.distance > 0` picking records with a defined
positive distance. -/
def hasPosDistance (f : Flight) : Bool :=
  match f.distance with
  | some d => decide (0 < d)
  | none => false

/-- `FlightStats`. -/
structure FlightStats where
  totalFlights : Nat
  totalDistance : Int
  uniqueAirlines : Nat
  uniqueDestinations : Nat
  firstFlight : Option String
  lastFlight : Option String
  mostFrequentAirlines : List (String × Nat)
  longestFlight : Option Flight
  shortestFlight : Option Flight
deriving Repr

/-- Timestamp key used by date sorting inside the store; an unparseable
date's `NaN` key is collapsed to `0` (the modelled properties only concern
parseable dates). -/
def dateKey (f : Flight) : Int := (parseDateJS f.date).getD 0

/-- `calculateStatistics(flights)` (`src/store/useFlightStore.ts`). -/
def calculateStatistics (fs : List Flight) : FlightStats :=
  if fs = [] then
    { totalFlights := 0, totalDistance := 0, uniqueAirlines := 0,
      uniqueDestinations := 0, firstFlight := none, lastFlight := none,
      mostFrequentAirlines := [], longestFlight := none, shortestFlight := none }
  else
    let totalDistance := (fs.map (fun f => f.distance.getD 0)).sum
    let counts := airlineCounts fs
    let sortedByDate := fs.insertionSort (fun a b => dateKey a ≤ dateKey b)
    let withDistance := fs.filter hasPosDistance
    { totalFlights := fs.length
      totalDistance := totalDistance
      uniqueAirlines := counts.length
      uniqueDestinations := ((fs.map (·.destination)).filter (· ≠ "")).dedup.length
      firstFlight := (sortedByDate.head?).map (·.date)
      lastFlight := (sortedByDate.getLast?).map (·.date)
      mostFrequentAirlines := (sortCountsDesc (objectEntries counts)).take 5
      longestFlight :=
        match withDistance with
        | [] => none
        | h :: t => some (t.foldl (fun mx f =>
            if mx.distance.getD 0 < f.distance.getD 0 then f else mx) h)
      shortestFlight :=
        match withDistance with
        | [] => none
        | h :: t => some (t.foldl (fun mn f =>
            if f.distance.getD 0 < mn.distance.getD 0 then f else mn) h) }

/-! ## Filtering and sorting (`applyFilters`) -/

/-- One searched field: `field?.toLowerCase().includes(searchLower)`. -/
def optMatches (o : Option String) (q : String) : Bool :=
  match o with
  | some s => jsIncludes (jsLower s) q
  | none => false

/-- The text-search predicate of `applyFilters`. -/
def searchMatches (f : Flight) (q : String) : Bool :=
  jsIncludes (jsLower f.origin) q ||
  jsIncludes (jsLower f.destination) q ||
  jsIncludes (jsLower f.airline) q ||
  jsIncludes (jsLower f.flightNumber) q ||
  optMatches f.aircraft q ||
  optMatches f.note q

/-- Lexicographic order on strings, standing in for `localeCompare`. -/
def strLe (a b : String) : Bool := decide (a.data ≤ b.data)

/-- The stable-sort placement relation derived from the comparator
`order * (keyA - keyB)`: an earlier element stays before a later one exactly
when the comparator is `≤ 0`. -/
def sortRel (key : SortKey) (ord : SortOrder) (a b : Flight) : Bool :=
  match key, ord with
  | .date, .asc => dateKey a ≤ dateKey b
  | .date, .desc => dateKey b ≤ dateKey a
  | .distance, .asc => a.distance.getD 0 ≤ b.distance.getD 0
  | .distance, .desc => b.distance.getD 0 ≤ a.distance.getD 0
  | .airline, .asc => strLe a.airline b.airline
  | .airline, .desc => strLe b.airline a.airline
  | .created_at, .asc => (parseDateJS a.created_at).getD 0 ≤ (parseDateJS b.created_at).getD 0
  | .created_at, .desc => (parseDateJS b.created_at).getD 0 ≤ (parseDateJS a.created_at).getD 0

/-- `applyFilters(flights, filters)` (`src/store/useFlightStore.ts`): apply
each present filter in order, then sort (default: date descending). -/
def applyFilters (fs : List Flight) (ft : FlightFilters) : List Flight :=
  let l1 : List Flight := match ft.search with
    | some q => fs.filter (fun f => searchMatches f (jsLower q))
    | none => fs
  let l2 : List Flight := match ft.airline with
    | some a => l1.filter (fun f => f.airline = a)
    | none => l1
  let l3 : List Flight := match ft.dateFrom with
    | some s => l2.filter (fun f =>
        match parseDateJS f.date, parseDateJS s with
        | some t, some t0 => t0 ≤ t
        | _, _ => false)
    | none => l2
  let l4 : List Flight := match ft.dateTo with
    | some s => l3.filter (fun f =>
        match parseDateJS f.date, parseDateJS s with
        | some t, some t1 => t ≤ t1
        | _, _ => false)
    | none => l3
  let l5 : List Flight := match ft.minDistance with
    | some m => l4.filter (fun f => m ≤ f.distance.getD 0)
    | none => l4
  let l6 : List Flight := match ft.maxDistance with
    | some m => l5.filter (fun f => f.distance.getD 0 ≤ m)
    | none => l5
  let l7 : List Flight := match ft.cls with
    | some c => l6.filter (fun f => f.cls = some c)
    | none => l6
  match ft.sortBy with
  | some key => l7.insertionSort (fun a b => sortRel key (ft.sortOrder.getD .desc) a b)
  | none => l7.insertionSort (fun a b => dateKey b ≤ dateKey a)

/-! ## Remote sync adapter (`SupabaseService`, `src/services/supabase.service.ts`,
current version: upsert-then-delete-extraneous reconciliation) -/

/-- A row of the remote `flights` table. -/
structure Row where
  id : String
  user_id : String
  date : String
  airline : String
  flight_number : String
  origin : String
  destination : String
  aircraft : Option String := none
  registration : Option String := none
  seat : Option String := none
  distance : Option Int := none
  duration : Option String := none
  cls : Option String := none
  reason : Option String := none
  note : Option String := none
  created_at : String := ""
  updated_at : Option String := none
deriving DecidableEq, Repr

/-- JS `value || null` on an optional string: empty string is falsy. -/
def jsOrNullStr (o : Option String) : Option String :=
  match o with
  | some s => if s = "" then none else some s
  | none => none

/-- JS `value || null` on an optional number: `0` is falsy. -/
def jsOrNullInt (o : Option Int) : Option Int :=
  match o with
  | some n => if n = 0 then none else some n
  | none => none

/-- Is the character a lowercase/uppercase hex digit? -/
def isHex (c : Char) : Bool := c.isDigit || ('a' ≤ c && c ≤ 'f') || ('A' ≤ c && c ≤ 'F')

/-- The adapter's owner-id check
`/^[0-9a-f]{8}-[0-9a-f]{4}-[1-5][0-9a-f]{3}-[89ab][0-9a-f]{3}-[0-9a-f]{12}$/i`. -/
def isValidUUID (s : String) : Bool :=
  let cs := s.data
  cs.length = 36 &&
  (List.range 36).all (fun i =>
    let c := cs.getD i ' '
    if i = 8 || i = 13 || i = 18 || i = 23 then c = '-'
    else if i = 14 then '1' ≤ c && c ≤ '5'
    else if i = 19 then
      c = '8' || c = '9' || c = 'a' || c = 'b' || c = 'A' || c = 'B'
    else isHex c)

/-- `toSupabase(flight, userId)`: field renames, `|| null` coercions and
`toString()` of the class enum.  The source throws when `flight.id` is empty;
that guard lives in `reconcileAll` below. -/
def toSupabase (userId : String) (f : Flight) : Row :=
  { id := f.id
    user_id := userId
    date := f.date
    airline := f.airline
    flight_number := f.flightNumber
    origin := f.origin
    destination := f.destination
    aircraft := jsOrNullStr f.aircraft
    registration := jsOrNullStr f.registration
    seat := jsOrNullStr f.seat
    distance := jsOrNullInt f.distance
    duration := jsOrNullStr f.duration
    cls := f.cls.map FlightClass.str
    reason := jsOrNullStr f.reason
    note := jsOrNullStr f.note
    created_at := f.created_at
    updated_at := jsOrNullStr f.updated_at }

/-- `upsert` of a single row with `onConflict: 'id'`: replace the rows whose
primary key matches, append otherwise. -/
def upsertOne (table : List Row) (r : Row) : List Row :=
  if table.any (fun x => x.id = r.id) then
    table.map (fun x => if x.id = r.id then r else x)
  else table ++ [r]

/-- The bulk `upsert` call over a batch of rows. -/
def upsertBatch (table : List Row) (rows : List Row) : List Row :=
  rows.foldl upsertOne table

/-- `SupabaseService.saveUserData(userId, data)` — the reconciliation entry
point (`reconcileAll` of the specification): validate the owner UUID, return
early when there is nothing to sync, otherwise bulk-upsert every local record
keyed by `id` and then delete the remote ids of this owner that are absent
locally.  Transport failures are not modelled here (see the sync-state model
below); this is the happy-path state transform on the remote table, split
into the branch result `reconciledTable` and the guarded entry point
`reconcileAll`. -/
def reconciledTable (userId : String) (flights : List Flight) (table : List Row) :
    List Row :=
  let t1 := upsertBatch table (flights.map (toSupabase userId))
  let localIds := flights.map (·.id)
  let remoteIds := (t1.filter (fun r => r.user_id = userId)).map (·.id)
  let idsToDelete := remoteIds.filter (fun i => ¬ localIds.any (fun j => j = i))
  t1.filter (fun r => ¬ idsToDelete.any (fun j => j = r.id))

def reconcileAll (userId : String) (flights : List Flight) (table : List Row) :
    Except String (List Row) :=
  if ¬ isValidUUID userId then
    .error "Invalid user ID format"
  else if flights.any (fun f => f.id = "") then
    .error "Flight ID is required for synchronization"
  else if flights = [] then
    .ok table
  else
    .ok (reconciledTable userId flights table)

/-! ## Sync coordinator state (`useSupabaseSync.ts`) -/

/-- `SyncState` of the hook. -/
structure SyncState where
  isSyncing : Bool := false
  lastSync : Option String := none
  pendingChanges : Nat := 0
  hasError : Bool := false
  errorMessage : Option String := none
deriving DecidableEq, Repr

def msgSyncFailed : String := "Ошибка синхронизации с сервером"

/-- `saveToSupabase(id, flights)`: guarded by the empty-id and in-flight
checks; on success resets the pending counter and stamps `lastSync`; on a
transport error (the `outcome` argument stands for the result of
`SupabaseService.saveUserData`) sets the error flag and message, touching
neither `pendingChanges` nor the local flight list (which it only reads). -/
def saveToSupabase (userId : String) (syncInProgress : Bool) (st : SyncState)
    (flights : List Flight) (outcome : Except String Unit) (now : String) :
    SyncState × List Flight :=
  if userId = "" || syncInProgress then (st, flights)
  else
    match outcome with
    | .ok _ =>
      ({ st with isSyncing := false, lastSync := some now, pendingChanges := 0,
                 hasError := false, errorMessage := none }, flights)
    | .error _ =>
      ({ st with isSyncing := false, hasError := true,
                 errorMessage := some msgSyncFailed }, flights)

/-! ## Id generation (store `generateFlightId` vs the sync hook's fast path) -/

/-- The characters of `"flight_"`. -/
def flightTag : List Char := ['f', 'l', 'i', 'g', 'h', 't', '_']

/-- Decimal digits of a natural number (`Number.prototype.toString` for the
integers produced by `Date.now()`). -/
def natChars (n : Nat) : List Char :=
  if _h : n < 10 then [Char.ofNat ('0'.toNat + n)]
  else natChars (n / 10) ++ [Char.ofNat ('0'.toNat + n % 10)]
decreasing_by exact Nat.div_lt_self (by omega) (by omega)

/-- A UUID v4 as produced by `uuidv4()`: five lowercase-hex groups joined by
dashes. -/
structure UUID where
  g1 : List Char
  g2 : List Char
  g3 : List Char
  g4 : List Char
  g5 : List Char

/-- The formatted UUID string's characters. -/
def UUID.chars (u : UUID) : List Char :=
  u.g1 ++ '-' :: u.g2 ++ '-' :: u.g3 ++ '-' :: u.g4 ++ '-' :: u.g5

/-- `generateFlightId()` of the local store: `` `flight_${uuidv4()}` ``. -/
def generateFlightId (u : UUID) : List Char := flightTag ++ u.chars

/-- The id minted by the sync hook's online fast path:
`` `flight_${Date.now()}_${Math.random().toString(36).substr(2, 9)}` ``.
`ts` is the `Date.now()` value and `rand` the base-36 fraction characters. -/
def fastPathId (ts : Nat) (rand : List Char) : List Char :=
  flightTag ++ natChars ts ++ '_' :: rand

/-- The sync hook's `addFlight` input shape `Omit<Flight, 'id' | 'created_at'>`. -/
structure FlightLike where
  date : String
  airline : String
  flightNumber : String
  origin : String
  destination : String
  aircraft : Option String := none
  registration : Option String := none
  seat : Option String := none
  distance : Option Int := none
  duration : Option String := none
  cls : Option FlightClass := none
  note : Option String := none
deriving DecidableEq, Repr

/-- JS `Number.prototype.toString` for the int distances handled by the hook. -/
def intChars (n : Int) : List Char :=
  if n < 0 then '-' :: natChars n.natAbs else natChars n.natAbs

/-- The `FlightFormData` the hook's `addFlight` builds before calling the
local store: `flightData.class || 'economy'` defaults the class, optional
fields collapse to `''`, the distance is re-stringified. -/
def hookFormData (x : FlightLike) : FlightFormData :=
  { date := x.date
    airline := x.airline
    flightNumber := x.flightNumber
    origin := x.origin
    destination := x.destination
    aircraft := x.aircraft.getD ""
    registration := x.registration.getD ""
    seat := x.seat.getD ""
    distance := match x.distance with
      | some n => ⟨intChars n⟩
      | none => ""
    duration := x.duration.getD ""
    cls := some (x.cls.getD .economy)
    note := x.note.getD "" }

/-- The local-store side of the sync hook's `addFlight`: convert the input to
form data (defaulting the class) and run the store's `addFlight`. -/
def hookAddFlight (st : StoreState) (x : FlightLike) (newId now : String)
    (today : Int) : StoreState × Except String Unit :=
  addFlight st (hookFormData x) newId now today

/-- The record the store appends for a hook-level input: the normalized form
data with the generated id and `created_at = now`. -/
def storedRecord (x : FlightLike) (newId now : String) : Flight :=
  { convertFormToFlight now (hookFormData x) with id := newId, created_at := now }

/-! ## Specification-side helpers for the statistics claims -/

/-- Number of records of `fs` whose airline is `a` (the frequency counted by
`airlineCounts`). -/
def airlineFreq (fs : List Flight) (a : String) : Nat :=
  (fs.filter (fun f => f.airline = a)).length

/-- First-encounter deduplication of a list of strings: keeps the first
occurrence of every value, in order of first appearance. -/
def keepFirst (l : List String) : List String :=
  l.foldl (fun acc a => if acc.any (fun b => b = a) then acc else acc ++ [a]) []

/-! ## Concrete fixtures used by the closed instances below -/

/-- A syntactically valid owner UUID. -/
def ownerFix : String := "12345678-1234-4123-8123-123456789abc"

/-- A minimal well-formed flight record. -/
def flightA : Flight :=
  { id := "a", date := "2024-01-01", airline := "X", flightNumber := "N1",
    origin := "O", destination := "D", created_at := "2024-01-01T00:00:00Z" }

/-- A second record with a different id. -/
def flightB : Flight :=
  { id := "b", date := "2024-01-02", airline := "Y", flightNumber := "N2",
    origin := "O", destination := "D", created_at := "2024-01-02T00:00:00Z" }

/-- A record whose airline and destination are empty strings. -/
def flightBlank : Flight :=
  { id := "c", date := "2024-01-03", airline := "", flightNumber := "N3",
    origin := "O", destination := "", created_at := "2024-01-03T00:00:00Z" }

/-- A record whose airline is the non-numeric name `"Alpha"`. -/
def flightAlpha : Flight :=
  { id := "p", date := "2024-01-04", airline := "Alpha", flightNumber := "N4",
    origin := "O", destination := "D", created_at := "2024-01-04T00:00:00Z" }

/-- A record whose airline is the canonical array-index string `"7"`. -/
def flight7 : Flight :=
  { id := "q", date := "2024-01-05", airline := "7", flightNumber := "N5",
    origin := "O", destination := "D", created_at := "2024-01-05T00:00:00Z" }

/-- A remote row owned by `ownerFix`. -/
def rowFix : Row :=
  { id := "a", user_id := ownerFix, date := "2024-01-01", airline := "X",
    flight_number := "N1", origin := "O", destination := "D",
    created_at := "2024-01-01T00:00:00Z" }

/-- Form input whose date is whitespace: non-empty for the falsy-test, empty
after trimming, and not a parseable date. -/
def formBlankDate : FlightFormData :=
  { date := " ", airline := "X", flightNumber := "A1",
    origin := "Moscow", destination := "Istanbul" }

/-- The specification scenario's form input (date 2024-01-10, flight number
`tk415`), as the sync hook receives it. -/
def scenarioInput : FlightLike :=
  { date := "2024-01-10", airline := "Turkish Airlines", flightNumber := "tk415",
    origin := "Moscow", destination := "Istanbul" }

/-- A form input dated one day after `todayFix`. -/
def formTomorrow : FlightFormData :=
  { date := "2024-01-11", airline := "Turkish Airlines", flightNumber := "tk415",
    origin := "Moscow", destination := "Istanbul" }

/-- The fixed "today" used by the instances: midnight of 2024-01-10. -/
def todayFix : Int := encodeDate 2024 1 10

/-- An update object that rewrites the record id (allowed by
`Partial<Flight>`). -/
def updIdToB : FlightUpdate := { id := some "b" }

/-! # Theorems -/

/-! ## Shared helper lemmas -/

theorem natChars_isDigit (n : Nat) : ∀ c ∈ natChars n, c.isDigit = true := by
  induction n using Nat.strong_induction_on with
  | _ n ih =>
    rw [natChars]
    split
    · next h =>
      intro c hc
      rw [List.mem_singleton] at hc
      subst hc
      interval_cases n <;> decide
    · next h =>
      intro c hc
      rw [List.mem_append] at hc
      rcases hc with h1 | h2
      · exact ih (n / 10) (Nat.div_lt_self (by omega) (by omega)) c h1
      · rw [List.mem_singleton] at h2
        subst h2
        have hm : n % 10 < 10 := Nat.mod_lt _ (by omega)
        set m := n % 10 with hmdef
        interval_cases m <;> decide

/-! ## C2 — failed push never discards state or data -/

/-- C2: when a push runs (non-empty owner id, no push already in flight) and
the transport fails, the resulting sync state has the error flag set with the
sync-failure message, `pendingChanges` keeps its previous value, and the local
flights list is returned unchanged. -/
theorem saveToSupabase_failure_keeps_pending (userId : String) (st : SyncState)
    (flights : List Flight) (e now : String) (hid : userId ≠ "") :
    ((saveToSupabase userId false st flights (.error e) now).1.hasError = true) ∧
    ((saveToSupabase userId false st flights (.error e) now).1.errorMessage =
      some msgSyncFailed) ∧
    ((saveToSupabase userId false st flights (.error e) now).1.pendingChanges =
      st.pendingChanges) ∧
    ((saveToSupabase userId false st flights (.error e) now).2 = flights) := by
  simp [saveToSupabase, hid]

theorem saveToSupabase_failure_keeps_pending_witness :
    ((saveToSupabase ownerFix false { pendingChanges := 3 } [flightA]
        (.error "boom") "T").1.hasError = true) ∧
    ((saveToSupabase ownerFix false { pendingChanges := 3 } [flightA]
        (.error "boom") "T").1.errorMessage = some msgSyncFailed) ∧
    ((saveToSupabase ownerFix false { pendingChanges := 3 } [flightA]
        (.error "boom") "T").1.pendingChanges =
      ({ pendingChanges := 3 } : SyncState).pendingChanges) ∧
    ((saveToSupabase ownerFix false { pendingChanges := 3 } [flightA]
        (.error "boom") "T").2 = [flightA]) :=
  saveToSupabase_failure_keeps_pending ownerFix { pendingChanges := 3 } [flightA]
    "boom" "T" (by decide)

/-! ## C4 — invalid input rejected, collection untouched -/

/-- C4: whenever validation reports at least one violation, `addFlight` fails
with the joined list of all validation messages and leaves the flights
collection unchanged. -/
theorem addFlight_invalid_rejects (st : StoreState) (f : FlightFormData)
    (newId now : String) (today : Int) (h : validateFlightData today f ≠ []) :
    ((addFlight st f newId now today).2 =
      .error (joinComma (validateFlightData today f))) ∧
    ((addFlight st f newId now today).1.flights = st.flights) := by
  simp [addFlight, h]

theorem addFlight_invalid_rejects_witness :
    msgDateFuture ∈ validateFlightData todayFix formTomorrow ∧
    ((addFlight { } formTomorrow "id1" "T" todayFix).2 =
      .error (joinComma (validateFlightData todayFix formTomorrow))) ∧
    ((addFlight { } formTomorrow "id1" "T" todayFix).1.flights = []) :=
  ⟨by decide,
   (addFlight_invalid_rejects { } formTomorrow "id1" "T" todayFix (by decide)).1,
   (addFlight_invalid_rejects { } formTomorrow "id1" "T" todayFix (by decide)).2⟩

/-! ## C6 — update of an absent id is a silent no-op, not a NotFoundError -/

/-- C6 counterexample: updating an id that is not in the collection succeeds
(no NotFoundError is raised) and leaves the collection unchanged. -/
theorem updateFlight_absent_id_cex :
    ((updateFlight { flights := [flightA] } "zzz" { } "T").2 = .ok ()) ∧
    ((updateFlight { flights := [flightA] } "zzz" { } "T").1.flights = [flightA]) := by
  constructor
  · rfl
  · decide

/-- C6 (amended): `updateFlight` never fails; it merges the partial fields
(stamping `updated_at` with the current time) into every record whose id
matches — a no-op when the id is absent — and leaves all other records
unchanged. -/
theorem updateFlight_merges_pointwise (st : StoreState) (id : String)
    (u : FlightUpdate) (now : String) :
    ((updateFlight st id u now).2 = .ok ()) ∧
    (∀ i : Nat, (updateFlight st id u now).1.flights[i]? =
      (st.flights[i]?).map (fun f => if f.id = id then mergeFlight f u now else f)) := by
  refine ⟨rfl, fun i => ?_⟩
  simp [updateFlight]

theorem updateFlight_merges_pointwise_witness :
    (updateFlight { flights := [flightA] } "a" updIdToB "T").1.flights[0]? =
      some (mergeFlight flightA updIdToB "T") := by
  have h := (updateFlight_merges_pointwise { flights := [flightA] } "a" updIdToB "T").2 0
  simpa [flightA] using h

/-! ## C7 — id uniqueness and immutability under store operations -/

/-- C7 counterexample: `updateFlight` applied with a partial-fields object
that contains an `id` key rewrites the record's id and can duplicate an
existing one, breaking uniqueness. -/
theorem updateFlight_breaks_id_uniqueness_cex :
    ¬ (((updateFlight { flights := [flightA, flightB] } "a" updIdToB "T").1.flights.map
        Flight.id).Nodup) := by
  decide

/-- C7 (amended): id uniqueness and id immutability are preserved by
`addFlight` (given a fresh generated id), by `deleteFlight`, by
`clearFlights`, and by `updateFlight` whenever the partial-fields object does
not contain an `id` key; an update whose fields include `id` may rewrite it. -/
theorem store_ops_preserve_id_invariants (st : StoreState) (f : FlightFormData)
    (newId now : String) (today : Int) (u : FlightUpdate) (id : String)
    (confirmed : Bool)
    (hnodup : (st.flights.map Flight.id).Nodup)
    (hfresh : newId ∉ st.flights.map Flight.id)
    (hu : u.id = none) :
    (((addFlight st f newId now today).1.flights.map Flight.id = st.flights.map Flight.id) ∨
     ((addFlight st f newId now today).1.flights.map Flight.id =
       st.flights.map Flight.id ++ [newId])) ∧
    (((addFlight st f newId now today).1.flights.map Flight.id).Nodup) ∧
    ((updateFlight st id u now).1.flights.map Flight.id = st.flights.map Flight.id) ∧
    (((updateFlight st id u now).1.flights.map Flight.id).Nodup) ∧
    (((deleteFlight st id).1.flights.map Flight.id).Nodup) ∧
    (∀ g ∈ (deleteFlight st id).1.flights, g ∈ st.flights) ∧
    (((clearFlights st confirmed).flights.map Flight.id).Nodup) := by
  have hupd : (updateFlight st id u now).1.flights.map Flight.id =
      st.flights.map Flight.id := by
    show (st.flights.map fun f => if f.id = id then mergeFlight f u now else f).map
        Flight.id = st.flights.map Flight.id
    rw [List.map_map]
    refine List.map_congr_left (fun f _ => ?_)
    by_cases hf : f.id = id
    · simp [Function.comp, hf, mergeFlight, hu]
    · simp [Function.comp, hf]
  refine ⟨?_, ?_, hupd, ?_, ?_, ?_, ?_⟩
  · by_cases herr : validateFlightData today f = []
    · right
      simp [addFlight, herr]
    · left
      simp [addFlight, herr]
  · by_cases herr : validateFlightData today f = []
    · simp [addFlight, herr, List.nodup_append, hnodup, hfresh]
    · simpa [addFlight, herr] using hnodup
  · rw [hupd]; exact hnodup
  · have hsub : List.Sublist ((deleteFlight st id).1.flights.map Flight.id)
        (st.flights.map Flight.id) :=
      (List.filter_sublist st.flights).map Flight.id
    exact hnodup.sublist hsub
  · intro g hg
    have : g ∈ st.flights.filter (fun x => x.id ≠ id) := hg
    exact (List.mem_filter.mp this).1
  · by_cases hc : confirmed <;> simp [clearFlights, hc, hnodup]

theorem store_ops_preserve_id_invariants_witness :
    (updateFlight { flights := [flightA, flightB] } "a" { } "T").1.flights.map
      Flight.id = ["a", "b"] := by
  have h := (store_ops_preserve_id_invariants { flights := [flightA, flightB] }
    formTomorrow "z" "T" 0 { } "a" true (by decide) (by decide) rfl).2.2.1
  simpa [flightA, flightB] using h

/-! ## C10 — fast-path remote id never equals the local record's id -/

/-- C10: the id the sync hook mints for the online fast-path remote insert
(`flight_<timestamp>_<random base-36 run>`) is never equal to the id the
local store generates (`flight_<uuid4>`): the uuid rendering always contains
a dash, while the fast-path id is built only from digits, an underscore and
alphanumeric characters. -/
theorem fastPath_id_ne_local_id (u : UUID) (ts : Nat) (rand : List Char)
    (hrand : ∀ c ∈ rand, c.isAlphanum = true) :
    generateFlightId u ≠ fastPathId ts rand := by
  intro heq
  have hmem : '-' ∈ generateFlightId u := by
    simp [generateFlightId, UUID.chars, flightTag]
  rw [heq] at hmem
  simp [fastPathId, flightTag, List.mem_append, List.mem_cons] at hmem
  rcases hmem with h1 | h2
  · exact absurd (natChars_isDigit ts '-' h1) (by decide)
  · exact absurd (hrand '-' h2) (by decide)

theorem fastPath_id_ne_local_id_witness :
    generateFlightId ⟨['a'], ['b'], ['c'], ['d'], ['e']⟩ ≠ fastPathId 5 ['x'] :=
  fastPath_id_ne_local_id ⟨['a'], ['b'], ['c'], ['d'], ['e']⟩ 5 ['x'] (by decide)

/-! ## C3 — the validator's actual rule set -/

/-- C3 counterexample: a form whose date is the whitespace string `" "` — a
date that is empty after trimming and parses to no calendar date — passes
validation with an empty error list, against the claimed rules. -/
theorem validate_accepts_untrimmed_unparseable_date_cex :
    validateFlightData 0 formBlankDate = [] ∧
    jsTrim formBlankDate.date = "" ∧
    parseDateJS formBlankDate.date = none := by
  refine ⟨?_, ?_, ?_⟩ <;> decide

theorem mem_if_singleton {α : Type} (c : Prop) [Decidable c] (a b : α) :
    (a ∈ if c then [b] else []) ↔ c ∧ a = b := by
  split <;> simp_all

theorem if_singleton_eq_nil {α : Type} (c : Prop) [Decidable c] (b : α) :
    (if c then [b] else []) = ([] : List α) ↔ ¬ c := by
  split <;> simp_all

theorem dateIsFuture_true_iff (today : Int) (d : String) :
    dateIsFuture today d = true ↔ ∃ t, parseDateJS d = some t ∧ today < t := by
  unfold dateIsFuture
  cases hp : parseDateJS d <;> simp [hp]

theorem dateIsFuture_false_iff (today : Int) (d : String) :
    dateIsFuture today d = false ↔ ∀ t, parseDateJS d = some t → t ≤ today := by
  unfold dateIsFuture
  cases hp : parseDateJS d <;> simp [hp]

theorem distanceIsInvalid_true_iff (s : String) :
    distanceIsInvalid s = true ↔
      (parseIntJS s = none ∨ ∃ n, parseIntJS s = some n ∧ n < 0) := by
  unfold distanceIsInvalid
  cases hp : parseIntJS s <;> simp [hp]

theorem distanceIsInvalid_false_iff (s : String) :
    distanceIsInvalid s = false ↔ ∃ n, parseIntJS s = some n ∧ 0 ≤ n := by
  unfold distanceIsInvalid
  cases hp : parseIntJS s <;> simp [hp]

/-- C3 (amended): `validate` collects all rule violations, not just the first:
origin, destination, airline and flightNumber must be non-empty after
trimming, the date must be non-empty (without trimming); a date that parses
must not be later than today at midnight, while a non-empty date that does
not parse is accepted without error; a non-empty distance text must parse
(`parseInt`) to a non-negative integer.  The list is empty exactly when all
of these hold. -/
theorem validateFlightData_rules (today : Int) (f : FlightFormData) :
    (msgOriginRequired ∈ validateFlightData today f ↔ jsTrim f.origin = "") ∧
    (msgDestinationRequired ∈ validateFlightData today f ↔ jsTrim f.destination = "") ∧
    (msgDateRequired ∈ validateFlightData today f ↔ f.date = "") ∧
    (msgAirlineRequired ∈ validateFlightData today f ↔ jsTrim f.airline = "") ∧
    (msgFlightNumberRequired ∈ validateFlightData today f ↔ jsTrim f.flightNumber = "") ∧
    (msgDateFuture ∈ validateFlightData today f ↔
      (f.date ≠ "" ∧ ∃ t, parseDateJS f.date = some t ∧ today < t)) ∧
    (msgDistanceInvalid ∈ validateFlightData today f ↔
      (f.distance ≠ "" ∧
        (parseIntJS f.distance = none ∨ ∃ n, parseIntJS f.distance = some n ∧ n < 0))) ∧
    (validateFlightData today f = [] ↔
      (jsTrim f.origin ≠ "" ∧ jsTrim f.destination ≠ "" ∧ f.date ≠ "" ∧
       jsTrim f.airline ≠ "" ∧ jsTrim f.flightNumber ≠ "" ∧
       (∀ t, parseDateJS f.date = some t → t ≤ today) ∧
       (f.distance ≠ "" → ∃ n, parseIntJS f.distance = some n ∧ 0 ≤ n))) := by
  refine ⟨?_, ?_, ?_, ?_, ?_, ?_, ?_, ?_⟩
  · simp [validateFlightData, List.mem_append, mem_if_singleton,
      msgOriginRequired, msgDestinationRequired, msgDateRequired,
      msgAirlineRequired, msgFlightNumberRequired, msgDateFuture, msgDistanceInvalid]
  · simp [validateFlightData, List.mem_append, mem_if_singleton,
      msgOriginRequired, msgDestinationRequired, msgDateRequired,
      msgAirlineRequired, msgFlightNumberRequired, msgDateFuture, msgDistanceInvalid]
  · simp [validateFlightData, List.mem_append, mem_if_singleton,
      msgOriginRequired, msgDestinationRequired, msgDateRequired,
      msgAirlineRequired, msgFlightNumberRequired, msgDateFuture, msgDistanceInvalid]
  · simp [validateFlightData, List.mem_append, mem_if_singleton,
      msgOriginRequired, msgDestinationRequired, msgDateRequired,
      msgAirlineRequired, msgFlightNumberRequired, msgDateFuture, msgDistanceInvalid]
  · simp [validateFlightData, List.mem_append, mem_if_singleton,
      msgOriginRequired, msgDestinationRequired, msgDateRequired,
      msgAirlineRequired, msgFlightNumberRequired, msgDateFuture, msgDistanceInvalid]
  · simp [validateFlightData, List.mem_append, mem_if_singleton,
      msgOriginRequired, msgDestinationRequired, msgDateRequired,
      msgAirlineRequired, msgFlightNumberRequired, msgDateFuture, msgDistanceInvalid,
      Bool.and_eq_true, decide_eq_true_eq, dateIsFuture_true_iff]
  · simp [validateFlightData, List.mem_append, mem_if_singleton,
      msgOriginRequired, msgDestinationRequired, msgDateRequired,
      msgAirlineRequired, msgFlightNumberRequired, msgDateFuture, msgDistanceInvalid,
      Bool.and_eq_true, decide_eq_true_eq, distanceIsInvalid_true_iff]
  · simp only [validateFlightData, List.append_eq_nil, if_singleton_eq_nil,
      Bool.and_eq_true, decide_eq_true_eq, not_and, and_assoc]
    constructor
    · rintro ⟨h1, h2, h3, h4, h5, h6, h7⟩
      refine ⟨h1, h2, h3, h4, h5, ?_, ?_⟩
      · have hfut : dateIsFuture today f.date = false := by
          cases hb : dateIsFuture today f.date
          · rfl
          · exact absurd hb (h6 h3)
        exact (dateIsFuture_false_iff today f.date).mp hfut
      · intro hdz
        have hinv : distanceIsInvalid f.distance = false := by
          cases hb : distanceIsInvalid f.distance
          · rfl
          · exact absurd hb (h7 hdz)
        exact (distanceIsInvalid_false_iff f.distance).mp hinv
    · rintro ⟨h1, h2, h3, h4, h5, h6, h7⟩
      refine ⟨h1, h2, h3, h4, h5, ?_, ?_⟩
      · intro _
        simp [(dateIsFuture_false_iff today f.date).mpr h6]
      · intro hdz
        simp [(distanceIsInvalid_false_iff f.distance).mpr (h7 hdz)]

theorem insertionSort_append_max {α : Type} (r : α → α → Prop) [DecidableRel r]
    (l : List α) (x : α) (h : ∀ y ∈ l, ¬ r y x) :
    (l ++ [x]).insertionSort r = x :: l.insertionSort r := by
  induction l with
  | nil => simp
  | cons a t ih =>
    have ha : ¬ r a x := h a (by simp)
    have ht : ∀ y ∈ t, ¬ r y x := fun y hy => h y (by simp [hy])
    have hstep : List.insertionSort r (t ++ [x]) = x :: List.insertionSort r t :=
      ih ht
    simp only [List.cons_append, List.insertionSort, List.append_eq]
    rw [hstep]
    simp [List.orderedInsert, if_neg ha]

/-! ## C5 — `addFlight` stores the normalized record -/

/-- C5: through the sync hook's `addFlight`, a valid input is stored as its
normalization — strings trimmed, flight number uppercased, the class
defaulting to `economy` when the input carries none, `created_at` set at
creation — appended to the collection, and it sorts first under sort key
`date` with order `desc` when its date is strictly the most recent. -/
theorem hookAddFlight_normalizes (st : StoreState) (x : FlightLike)
    (newId now : String) (today tn : Int)
    (hvalid : validateFlightData today (hookFormData x) = [])
    (ht : parseDateJS x.date = some tn)
    (hmax : ∀ g ∈ st.flights, ∃ tg, parseDateJS g.date = some tg ∧ tg < tn) :
    ((hookAddFlight st x newId now today).2 = .ok ()) ∧
    ((hookAddFlight st x newId now today).1.flights =
      st.flights ++ [storedRecord x newId now]) ∧
    ((storedRecord x newId now).flightNumber = jsUpper (jsTrim x.flightNumber)) ∧
    ((storedRecord x newId now).airline = jsTrim x.airline) ∧
    ((storedRecord x newId now).origin = jsTrim x.origin) ∧
    ((storedRecord x newId now).destination = jsTrim x.destination) ∧
    ((storedRecord x newId now).cls = some (x.cls.getD .economy)) ∧
    ((storedRecord x newId now).created_at = now) ∧
    ((applyFilters (hookAddFlight st x newId now today).1.flights
        { sortBy := some .date, sortOrder := some .desc }).head? =
      some (storedRecord x newId now)) := by
  have hflights : (hookAddFlight st x newId now today).1.flights =
      st.flights ++ [storedRecord x newId now] := by
    simp [hookAddFlight, addFlight, hvalid, storedRecord]
  refine ⟨by simp [hookAddFlight, addFlight, hvalid], hflights, rfl, rfl, rfl, rfl,
    by simp [storedRecord, convertFormToFlight, hookFormData], rfl, ?_⟩
  rw [hflights]
  have hkey : dateKey (storedRecord x newId now) = tn := by
    simp [dateKey, storedRecord, convertFormToFlight, hookFormData, ht]
  have hlt : ∀ y ∈ st.flights,
      ¬ ((sortRel .date .desc y (storedRecord x newId now)) = true) := by
    intro y hy
    obtain ⟨tg, hg, hglt⟩ := hmax y hy
    have h1 : dateKey y = tg := by simp [dateKey, hg]
    simp only [sortRel, hkey, h1, decide_eq_true_eq]
    omega
  show ((st.flights ++ [storedRecord x newId now]).insertionSort _).head? = _
  rw [insertionSort_append_max _ _ _ hlt]
  rfl

theorem hookAddFlight_normalizes_witness :
    ((hookAddFlight { } scenarioInput "id9" "T" todayFix).2 = .ok ()) ∧
    ((hookAddFlight { } scenarioInput "id9" "T" todayFix).1.flights =
      ({ } : StoreState).flights ++ [storedRecord scenarioInput "id9" "T"]) ∧
    ((storedRecord scenarioInput "id9" "T").flightNumber =
      jsUpper (jsTrim scenarioInput.flightNumber)) ∧
    ((storedRecord scenarioInput "id9" "T").airline = jsTrim scenarioInput.airline) ∧
    ((storedRecord scenarioInput "id9" "T").origin = jsTrim scenarioInput.origin) ∧
    ((storedRecord scenarioInput "id9" "T").destination =
      jsTrim scenarioInput.destination) ∧
    ((storedRecord scenarioInput "id9" "T").cls =
      some (scenarioInput.cls.getD .economy)) ∧
    ((storedRecord scenarioInput "id9" "T").created_at = "T") ∧
    ((applyFilters (hookAddFlight { } scenarioInput "id9" "T" todayFix).1.flights
        { sortBy := some .date, sortOrder := some .desc }).head? =
      some (storedRecord scenarioInput "id9" "T")) :=
  hookAddFlight_normalizes { } scenarioInput "id9" "T" todayFix
    (encodeDate 2024 1 10) (by decide) (by decide) (by simp)

/-! ## C1 — reconciliation mirror property -/

theorem mem_upsertOne (t : List Row) (r x : Row) :
    x ∈ upsertOne t r ↔ x = r ∨ (x ∈ t ∧ x.id ≠ r.id) := by
  unfold upsertOne
  by_cases h : t.any (fun y => y.id = r.id)
  · rw [if_pos h]
    rw [List.any_eq_true] at h
    obtain ⟨w, hw, hwid⟩ := h
    rw [decide_eq_true_eq] at hwid
    simp only [List.mem_map]
    constructor
    · rintro ⟨y, hy, hxy⟩
      by_cases hid : y.id = r.id
      · left
        rw [← hxy, if_pos hid]
      · right
        rw [← hxy, if_neg hid]
        exact ⟨hy, hid⟩
    · rintro (rfl | ⟨hx, hid⟩)
      · exact ⟨w, hw, by rw [if_pos hwid]⟩
      · exact ⟨x, hx, by rw [if_neg hid]⟩
  · rw [if_neg h]
    have h' : ∀ y ∈ t, y.id ≠ r.id := by
      intro y hy
      by_contra hc
      exact h (List.any_eq_true.mpr ⟨y, hy, by simpa using hc⟩)
    simp only [List.mem_append, List.mem_singleton]
    constructor
    · rintro (hx | rfl)
      · exact Or.inr ⟨hx, h' x hx⟩
      · exact Or.inl rfl
    · rintro (rfl | ⟨hx, _⟩)
      · exact Or.inr rfl
      · exact Or.inl hx

theorem nodupKeys_upsertOne (t : List Row) (r : Row)
    (h : (t.map Row.id).Nodup) : ((upsertOne t r).map Row.id).Nodup := by
  unfold upsertOne
  by_cases hc : t.any (fun y => y.id = r.id)
  · rw [if_pos hc, List.map_map]
    have heq : t.map (Row.id ∘ fun x => if x.id = r.id then r else x) =
        t.map Row.id := by
      refine List.map_congr_left (fun y _ => ?_)
      by_cases hid : y.id = r.id
      · simp [Function.comp, hid]
      · simp [Function.comp, hid]
    rw [heq]
    exact h
  · rw [if_neg hc, List.map_append]
    have hnot : r.id ∉ t.map Row.id := by
      intro hmem
      obtain ⟨y, hy, hyid⟩ := List.mem_map.mp hmem
      exact hc (List.any_eq_true.mpr ⟨y, hy, by simpa using hyid⟩)
    simp [List.nodup_append, h, hnot]

theorem mem_upsertBatch :
    ∀ rows : List Row, (rows.map Row.id).Nodup →
      ∀ (t : List Row) (x : Row), x ∈ upsertBatch t rows ↔
        x ∈ rows ∨ (x ∈ t ∧ x.id ∉ rows.map Row.id) := by
  intro rows
  induction rows with
  | nil => intro _ t x; simp [upsertBatch]
  | cons r rs ih =>
    intro hrows t x
    have hr : r.id ∉ rs.map Row.id := by
      simp only [List.map_cons, List.nodup_cons] at hrows
      exact hrows.1
    have hrs : (rs.map Row.id).Nodup := by
      simp only [List.map_cons, List.nodup_cons] at hrows
      exact hrows.2
    have hstep : upsertBatch t (r :: rs) = upsertBatch (upsertOne t r) rs := rfl
    rw [hstep, ih hrs, mem_upsertOne]
    simp only [List.mem_cons, List.map_cons]
    constructor
    · rintro (hx | ⟨(rfl | ⟨hxt, hxid⟩), hnot⟩)
      · exact Or.inl (Or.inr hx)
      · exact Or.inl (Or.inl rfl)
      · refine Or.inr ⟨hxt, ?_⟩
        rintro (h1 | h2)
        · exact hxid h1
        · exact hnot h2
    · rintro ((rfl | hx) | ⟨hxt, hnot⟩)
      · exact Or.inr ⟨Or.inl rfl, hr⟩
      · exact Or.inl hx
      · push_neg at hnot
        exact Or.inr ⟨Or.inr ⟨hxt, hnot.1⟩, hnot.2⟩

theorem nodupKeys_upsertBatch (rows : List Row) :
    ∀ t : List Row, (t.map Row.id).Nodup →
      ((upsertBatch t rows).map Row.id).Nodup := by
  induction rows with
  | nil => intro t ht; exact ht
  | cons r rs ih =>
    intro t ht
    exact ih (upsertOne t r) (nodupKeys_upsertOne t r ht)

theorem nodupKeys_reconciledTable (userId : String) (flights : List Flight)
    (t : List Row) (ht : (t.map Row.id).Nodup) :
    ((reconciledTable userId flights t).map Row.id).Nodup := by
  have h1 := nodupKeys_upsertBatch (flights.map (toSupabase userId)) t ht
  have hsub : List.Sublist ((reconciledTable userId flights t).map Row.id)
      ((upsertBatch t (flights.map (toSupabase userId))).map Row.id) :=
    (List.filter_sublist _).map Row.id
  exact h1.sublist hsub

theorem mem_reconciledTable (userId : String) (flights : List Flight)
    (t : List Row) (hids : (flights.map Flight.id).Nodup) (r : Row) :
    (r ∈ reconciledTable userId flights t ∧ r.user_id = userId) ↔
    ∃ x ∈ flights, r = toSupabase userId x := by
  have hrowids : (flights.map (toSupabase userId)).map Row.id =
      flights.map Flight.id := by
    rw [List.map_map]
    rfl
  have hrnodup : ((flights.map (toSupabase userId)).map Row.id).Nodup := by
    rw [hrowids]
    exact hids
  have hmemt1 := mem_upsertBatch (flights.map (toSupabase userId)) hrnodup t
  simp only [reconciledTable]
  constructor
  · rintro ⟨hmem, huser⟩
    rw [List.mem_filter] at hmem
    obtain ⟨h1, h2⟩ := hmem
    rw [decide_eq_true_eq] at h2
    have hidin : r.id ∈ flights.map Flight.id := by
      by_contra hnot
      apply h2
      rw [List.any_eq_true]
      refine ⟨r.id, ?_, by simp⟩
      rw [List.mem_filter]
      constructor
      · rw [List.mem_map]
        exact ⟨r, by rw [List.mem_filter]; exact ⟨h1, by simp [huser]⟩, rfl⟩
      · rw [decide_eq_true_eq]
        intro hany
        rw [List.any_eq_true] at hany
        obtain ⟨j, hj, hj2⟩ := hany
        rw [decide_eq_true_eq] at hj2
        rw [hj2] at hj
        exact hnot hj
    rcases (hmemt1 r).mp h1 with hx | ⟨_, hnotin⟩
    · obtain ⟨x, hxf, hxe⟩ := List.mem_map.mp hx
      exact ⟨x, hxf, hxe.symm⟩
    · rw [hrowids] at hnotin
      exact absurd hidin hnotin
  · rintro ⟨x, hxf, rfl⟩
    refine ⟨?_, rfl⟩
    rw [List.mem_filter]
    constructor
    · exact (hmemt1 _).mpr (Or.inl (List.mem_map.mpr ⟨x, hxf, rfl⟩))
    · rw [decide_eq_true_eq]
      intro hany
      rw [List.any_eq_true] at hany
      obtain ⟨i, hi, hieq⟩ := hany
      rw [decide_eq_true_eq] at hieq
      rw [List.mem_filter] at hi
      obtain ⟨_, hi2⟩ := hi
      rw [decide_eq_true_eq] at hi2
      apply hi2
      rw [List.any_eq_true]
      refine ⟨x.id, ?_, by simp [hieq, toSupabase]⟩
      exact List.mem_map.mpr ⟨x, hxf, rfl⟩

theorem reconcileAll_ok (userId : String) (flights : List Flight) (t : List Row)
    (hval : isValidUUID userId = true) (hnz : ∀ f ∈ flights, f.id ≠ "")
    (hne : flights ≠ []) :
    reconcileAll userId flights t = .ok (reconciledTable userId flights t) := by
  have hany : ¬ (flights.any (fun f => f.id = "") = true) := by
    rw [List.any_eq_true]
    rintro ⟨f, hf, hfe⟩
    exact hnz f hf (by simpa using hfe)
  simp [reconcileAll, hval, hany, hne]

/-- C1 (amended): for every syntactically valid owner id and every NON-EMPTY
list X of local records with distinct non-empty ids, `reconcileAll` makes the
remote state of that owner a mirror of X: the owner's remote rows afterwards
are exactly the converted records of X (matching ids overwritten, extraneous
owner rows deleted).  With an empty X the call returns early and deletes
nothing (see the counterexample). -/
theorem reconcileAll_mirrors_local (userId : String) (flights : List Flight)
    (t : List Row) (hval : isValidUUID userId = true) (hne : flights ≠ [])
    (hnz : ∀ f ∈ flights, f.id ≠ "") (hids : (flights.map Flight.id).Nodup) :
    reconcileAll userId flights t = .ok (reconciledTable userId flights t) ∧
    ∀ r : Row, (r ∈ reconciledTable userId flights t ∧ r.user_id = userId) ↔
      ∃ x ∈ flights, r = toSupabase userId x :=
  ⟨reconcileAll_ok userId flights t hval hnz hne,
   fun r => mem_reconciledTable userId flights t hids r⟩

theorem reconcileAll_mirrors_local_witness :
    reconcileAll ownerFix [flightA] [rowFix] =
      .ok (reconciledTable ownerFix [flightA] [rowFix]) ∧
    ((toSupabase ownerFix flightA ∈ reconciledTable ownerFix [flightA] [rowFix] ∧
      (toSupabase ownerFix flightA).user_id = ownerFix) ↔
      ∃ x ∈ [flightA], toSupabase ownerFix flightA = toSupabase ownerFix x) :=
  ⟨(reconcileAll_mirrors_local ownerFix [flightA] [rowFix] (by decide) (by decide)
      (by decide) (by decide)).1,
   (reconcileAll_mirrors_local ownerFix [flightA] [rowFix] (by decide) (by decide)
      (by decide) (by decide)).2 (toSupabase ownerFix flightA)⟩

/-- C1 counterexample: with an empty local list, `saveUserData` returns early
and the owner's remote rows are retained, not deleted — the remote state is
not the mirror of the empty collection. -/
theorem reconcileAll_empty_is_noop_cex :
    reconcileAll ownerFix [] [rowFix] = .ok [rowFix] ∧
    rowFix.user_id = ownerFix := by
  constructor
  · rfl
  · rfl

/-! ## C8 — reconciliation idempotence -/

theorem upsertOne_eq_self (t : List Row) (r : Row)
    (ht : (t.map Row.id).Nodup) (hr : r ∈ t) : upsertOne t r = t := by
  unfold upsertOne
  rw [if_pos (List.any_eq_true.mpr ⟨r, hr, by simp⟩)]
  have : ∀ y ∈ t, (if y.id = r.id then r else y) = y := by
    intro y hy
    by_cases hid : y.id = r.id
    · rw [if_pos hid]
      exact (List.inj_on_of_nodup_map ht hr hy hid.symm).symm ▸ rfl
    · rw [if_neg hid]
  calc t.map (fun y => if y.id = r.id then r else y)
      = t.map (fun y => y) := List.map_congr_left this
    _ = t := List.map_id' t

theorem upsertBatch_eq_self (rows : List Row) :
    ∀ t : List Row, (t.map Row.id).Nodup → (∀ r ∈ rows, r ∈ t) →
      upsertBatch t rows = t := by
  induction rows with
  | nil => intro t _ _; rfl
  | cons r rs ih =>
    intro t ht hall
    have h1 : upsertOne t r = t := upsertOne_eq_self t r ht (hall r (by simp))
    have hstep : upsertBatch t (r :: rs) = upsertBatch (upsertOne t r) rs := rfl
    rw [hstep, h1]
    exact ih t ht (fun x hx => hall x (by simp [hx]))

theorem reconciledTable_fixpoint (userId : String) (flights : List Flight)
    (t : List Row) (hids : (flights.map Flight.id).Nodup)
    (ht : (t.map Row.id).Nodup) :
    reconciledTable userId flights (reconciledTable userId flights t) =
      reconciledTable userId flights t := by
  have hTnodup := nodupKeys_reconciledTable userId flights t ht
  have hall : ∀ r ∈ flights.map (toSupabase userId),
      r ∈ reconciledTable userId flights t := by
    intro r hr
    obtain ⟨x, hxf, rfl⟩ := List.mem_map.mp hr
    exact ((mem_reconciledTable userId flights t hids (toSupabase userId x)).mpr
      ⟨x, hxf, rfl⟩).1
  conv_lhs => rw [reconciledTable]
  rw [upsertBatch_eq_self (flights.map (toSupabase userId))
    (reconciledTable userId flights t) hTnodup hall]
  have hdel : List.filter
      (fun i => ¬ (flights.map (fun x => x.id)).any (fun j => j = i))
      (((reconciledTable userId flights t).filter
        (fun r => r.user_id = userId)).map (fun r => r.id)) = [] := by
    rw [List.filter_eq_nil_iff]
    intro i hi
    obtain ⟨r, hrmem, rfl⟩ := List.mem_map.mp hi
    rw [List.mem_filter] at hrmem
    obtain ⟨hrT, hruser⟩ := hrmem
    rw [decide_eq_true_eq] at hruser
    obtain ⟨x, hxf, rfl⟩ :=
      (mem_reconciledTable userId flights t hids r).mp ⟨hrT, hruser⟩
    simp only [decide_eq_true_eq, Decidable.not_not]
    rw [List.any_eq_true]
    exact ⟨x.id, List.mem_map.mpr ⟨x, hxf, rfl⟩, by simp [toSupabase]⟩
  rw [hdel]
  rw [List.filter_eq_self]
  intro a _
  simp

/-- C8: full reconciliation is idempotent — if `reconcileAll(owner, X)`
succeeds producing remote table `t'`, running it again on `t'` succeeds and
leaves the table exactly `t'`: no duplicate rows are created and no extra
deletions are performed.  This covers the empty `X` as well (both runs are
no-ops). -/
theorem reconcileAll_idempotent (userId : String) (flights : List Flight)
    (t t' : List Row) (hids : (flights.map Flight.id).Nodup)
    (ht : (t.map Row.id).Nodup)
    (h : reconcileAll userId flights t = .ok t') :
    reconcileAll userId flights t' = .ok t' := by
  unfold reconcileAll at h ⊢
  by_cases h1 : ¬ isValidUUID userId = true
  · rw [if_pos h1] at h
    exact absurd h (by simp)
  · rw [if_neg h1] at h ⊢
    by_cases h2 : flights.any (fun f => f.id = "") = true
    · rw [if_pos h2] at h
      exact absurd h (by simp)
    · rw [if_neg h2] at h ⊢
      by_cases h3 : flights = []
      · rw [if_pos h3] at h ⊢
      · rw [if_neg h3] at h ⊢
        have hT : t' = reconciledTable userId flights t := by
          injection h with h'
          exact h'.symm
        subst hT
        rw [reconciledTable_fixpoint userId flights t hids ht]

theorem reconcileAll_idempotent_witness :
    reconcileAll ownerFix [flightA] (reconciledTable ownerFix [flightA] [rowFix]) =
      .ok (reconciledTable ownerFix [flightA] [rowFix]) :=
  reconcileAll_idempotent ownerFix [flightA] [rowFix]
    (reconciledTable ownerFix [flightA] [rowFix]) (by decide) (by decide) (by rfl)

/-! ## C9 — statistics -/

theorem airlineFreq_append (l : List Flight) (f : Flight) (a : String) :
    airlineFreq (l ++ [f]) a =
      airlineFreq l a + (if f.airline = a then 1 else 0) := by
  unfold airlineFreq
  rw [List.filter_append, List.length_append]
  congr 1
  by_cases h : f.airline = a
  · simp [h]
  · simp [h]

theorem airlineFreq_eq_zero (l : List Flight) (a : String)
    (h : a ∉ l.map (fun f => f.airline)) : airlineFreq l a = 0 := by
  unfold airlineFreq
  rw [List.length_eq_zero, List.filter_eq_nil_iff]
  intro f hf
  simp only [decide_eq_true_eq]
  intro he
  exact h (List.mem_map.mpr ⟨f, hf, he⟩)

theorem any_fst_iff (acc : List (String × Nat)) (a : String) :
    (acc.any (fun p => p.1 = a) = true) ↔ a ∈ acc.map Prod.fst := by
  rw [List.any_eq_true, List.mem_map]
  constructor
  · rintro ⟨p, hp, he⟩
    exact ⟨p, hp, by simpa using he⟩
  · rintro ⟨p, hp, he⟩
    exact ⟨p, hp, by simpa using he⟩

theorem bumpCount_keys (acc : List (String × Nat)) (a : String) :
    (bumpCount acc a).map Prod.fst =
      if a ∈ acc.map Prod.fst then acc.map Prod.fst
      else acc.map Prod.fst ++ [a] := by
  unfold bumpCount
  by_cases h : a ∈ acc.map Prod.fst
  · rw [if_pos ((any_fst_iff acc a).mpr h), if_pos h, List.map_map]
    refine List.map_congr_left (fun p _ => ?_)
    by_cases hp : p.1 = a
    · simp [Function.comp, hp]
    · simp [Function.comp, hp]
  · rw [if_neg (fun hc => h ((any_fst_iff acc a).mp hc)), if_neg h,
      List.map_append]
    rfl

theorem mem_bumpCount (acc : List (String × Nat)) (a : String)
    (p : String × Nat) (hp : p ∈ bumpCount acc a) :
    (p ∈ acc ∧ p.1 ≠ a) ∨
    (∃ q ∈ acc, q.1 = a ∧ p = (q.1, q.2 + 1)) ∨
    (p = (a, 1) ∧ a ∉ acc.map Prod.fst) := by
  unfold bumpCount at hp
  by_cases h : acc.any (fun q => q.1 = a) = true
  · rw [if_pos h] at hp
    obtain ⟨q, hq, hqe⟩ := List.mem_map.mp hp
    by_cases hqa : q.1 = a
    · rw [if_pos hqa] at hqe
      exact Or.inr (Or.inl ⟨q, hq, hqa, hqe.symm⟩)
    · rw [if_neg hqa] at hqe
      exact Or.inl ⟨hqe ▸ hq, hqe ▸ hqa⟩
  · rw [if_neg h] at hp
    rcases List.mem_append.mp hp with hp1 | hp2
    · refine Or.inl ⟨hp1, fun he => ?_⟩
      exact h (List.any_eq_true.mpr ⟨p, hp1, by simpa using he⟩)
    · refine Or.inr (Or.inr ⟨List.mem_singleton.mp hp2, fun hc => ?_⟩)
      exact h ((any_fst_iff acc a).mpr hc)

theorem airlineCounts_inv :
    ∀ (fs processed : List Flight) (acc : List (String × Nat)),
      (acc.map Prod.fst).Nodup →
      (∀ p ∈ acc, p.1 ≠ "" ∧ p.2 = airlineFreq processed p.1) →
      (∀ a : String, a ≠ "" →
        (a ∈ acc.map Prod.fst ↔ a ∈ processed.map (fun f => f.airline))) →
      (((fs.foldl countStep acc).map Prod.fst).Nodup ∧
       (∀ p ∈ fs.foldl countStep acc,
          p.1 ≠ "" ∧ p.2 = airlineFreq (processed ++ fs) p.1) ∧
       (∀ a : String, a ≠ "" →
          (a ∈ (fs.foldl countStep acc).map Prod.fst ↔
           a ∈ (processed ++ fs).map (fun f => f.airline)))) := by
  intro fs
  induction fs with
  | nil =>
    intro processed acc h1 h2 h3
    simp only [List.foldl_nil, List.append_nil]
    exact ⟨h1, h2, h3⟩
  | cons f fs ih =>
    intro processed acc h1 h2 h3
    have hgoal : (f :: fs).foldl countStep acc = fs.foldl countStep (countStep acc f) :=
      List.foldl_cons ..
    have happ : processed ++ f :: fs = (processed ++ [f]) ++ fs := by
      rw [List.append_assoc]
      rfl
    rw [hgoal, happ]
    by_cases hf : f.airline = ""
    · have hstep : countStep acc f = acc := by simp [countStep, hf]
      rw [hstep]
      refine ih (processed ++ [f]) acc h1 ?_ ?_
      · intro p hp
        obtain ⟨hne, heq⟩ := h2 p hp
        refine ⟨hne, ?_⟩
        rw [airlineFreq_append, if_neg (by rw [hf]; exact fun hc => hne hc.symm)]
        omega
      · intro a ha
        rw [List.map_append, List.mem_append]
        constructor
        · intro hx
          exact Or.inl ((h3 a ha).mp hx)
        · rintro (hx | hx)
          · exact (h3 a ha).mpr hx
          · simp only [List.map_cons, List.map_nil, List.mem_singleton] at hx
            rw [hf] at hx
            exact absurd hx ha
    · have hstep : countStep acc f = bumpCount acc f.airline := by
        simp [countStep, hf]
      rw [hstep]
      have hkeys := bumpCount_keys acc f.airline
      refine ih (processed ++ [f]) (bumpCount acc f.airline) ?_ ?_ ?_
      · by_cases hmem : f.airline ∈ acc.map Prod.fst
        · rw [hkeys, if_pos hmem]
          exact h1
        · rw [hkeys, if_neg hmem]
          simp [List.nodup_append, h1, hmem]
      · intro p hp
        rcases mem_bumpCount acc f.airline p hp with
          ⟨hpacc, hpne⟩ | ⟨q, hq, hqa, rfl⟩ | ⟨rfl, hnotin⟩
        · obtain ⟨hne, heq⟩ := h2 p hpacc
          refine ⟨hne, ?_⟩
          rw [airlineFreq_append, if_neg (fun hc => hpne hc.symm)]
          omega
        · obtain ⟨hne, heq⟩ := h2 q hq
          refine ⟨hne, ?_⟩
          show q.2 + 1 = airlineFreq (processed ++ [f]) q.1
          rw [airlineFreq_append, if_pos (by rw [hqa])]
          omega
        · refine ⟨hf, ?_⟩
          have hzero : airlineFreq processed f.airline = 0 := by
            apply airlineFreq_eq_zero
            intro hc
            exact hnotin ((h3 f.airline hf).mpr hc)
          show 1 = airlineFreq (processed ++ [f]) f.airline
          rw [airlineFreq_append, if_pos rfl, hzero]
      · intro a ha
        rw [List.map_append, List.mem_append]
        by_cases hmem : f.airline ∈ acc.map Prod.fst
        · rw [hkeys, if_pos hmem]
          constructor
          · intro hx
            exact Or.inl ((h3 a ha).mp hx)
          · rintro (hx | hx)
            · exact (h3 a ha).mpr hx
            · simp only [List.map_cons, List.map_nil, List.mem_singleton] at hx
              rw [hx]
              exact hmem
        · rw [hkeys, if_neg hmem, List.mem_append, List.mem_singleton]
          constructor
          · rintro (hx | hx)
            · exact Or.inl ((h3 a ha).mp hx)
            · right
              simp [hx]
          · rintro (hx | hx)
            · exact Or.inl ((h3 a ha).mpr hx)
            · simp only [List.map_cons, List.map_nil, List.mem_singleton] at hx
              exact Or.inr hx

theorem airlineCounts_keys_nodup (fs : List Flight) :
    ((airlineCounts fs).map Prod.fst).Nodup := by
  have h := airlineCounts_inv fs [] [] (by simp) (by simp) (by simp)
  simpa [airlineCounts] using h.1

theorem airlineCounts_counts (fs : List Flight) :
    ∀ p ∈ airlineCounts fs, p.1 ≠ "" ∧ p.2 = airlineFreq fs p.1 := by
  have h := airlineCounts_inv fs [] [] (by simp) (by simp) (by simp)
  simpa [airlineCounts] using h.2.1

theorem airlineCounts_keys_mem (fs : List Flight) :
    ∀ a : String, a ≠ "" →
      (a ∈ (airlineCounts fs).map Prod.fst ↔ a ∈ fs.map (fun f => f.airline)) := by
  have h := airlineCounts_inv fs [] [] (by simp) (by simp) (by simp)
  simpa [airlineCounts] using h.2.2

theorem any_eq_iff_mem (l : List String) (a : String) :
    (l.any (fun b => b = a) = true) ↔ a ∈ l := by
  rw [List.any_eq_true]
  constructor
  · rintro ⟨b, hb, he⟩
    rw [decide_eq_true_eq] at he
    exact he ▸ hb
  · intro h
    exact ⟨a, h, by simp⟩

theorem airlineCounts_keys_keepFirst :
    ∀ (fs : List Flight) (acc : List (String × Nat)),
      (fs.foldl countStep acc).map Prod.fst =
        ((fs.map (fun f => f.airline)).filter (fun a => a ≠ "")).foldl
          (fun acc2 a => if acc2.any (fun b => b = a) then acc2 else acc2 ++ [a])
          (acc.map Prod.fst) := by
  intro fs
  induction fs with
  | nil => intro acc; rfl
  | cons f fs ih =>
    intro acc
    rw [List.foldl_cons, List.map_cons, List.filter_cons]
    by_cases hf : f.airline = ""
    · have hs : countStep acc f = acc := by simp [countStep, hf]
      rw [hs, if_neg (by simp [hf])]
      exact ih acc
    · have hs : countStep acc f = bumpCount acc f.airline := by
        simp [countStep, hf]
      rw [hs, if_pos (by simp [hf]), List.foldl_cons, ih (bumpCount acc f.airline),
        bumpCount_keys]
      by_cases hmem : f.airline ∈ acc.map Prod.fst
      · rw [if_pos hmem, if_pos ((any_eq_iff_mem _ _).mpr hmem)]
      · rw [if_neg hmem, if_neg (fun hc => hmem ((any_eq_iff_mem _ _).mp hc))]

theorem airlineCounts_length_eq_dedup (fs : List Flight) :
    (airlineCounts fs).length =
      ((fs.map (fun f => f.airline)).filter (fun a => a ≠ "")).dedup.length := by
  have h1 : (airlineCounts fs).length =
      ((airlineCounts fs).map Prod.fst).length := (List.length_map ..).symm
  have hperm : List.Perm ((airlineCounts fs).map Prod.fst)
      (((fs.map (fun f => f.airline)).filter (fun a => a ≠ "")).dedup) := by
    rw [List.perm_ext_iff_of_nodup (airlineCounts_keys_nodup fs)
      (List.nodup_dedup _)]
    intro a
    rw [List.mem_dedup, List.mem_filter]
    constructor
    · intro ha
      obtain ⟨p, hp, rfl⟩ := List.mem_map.mp ha
      obtain ⟨hne, _⟩ := airlineCounts_counts fs p hp
      exact ⟨(airlineCounts_keys_mem fs p.1 hne).mp ha, by simpa using hne⟩
    · rintro ⟨hmem, hne⟩
      rw [decide_eq_true_eq] at hne
      exact (airlineCounts_keys_mem fs a hne).mpr hmem
  rw [h1, hperm.length_eq]

theorem sortCountsDesc_sorted (cs : List (String × Nat)) :
    (sortCountsDesc cs).Pairwise (fun p q => q.2 ≤ p.2) := by
  haveI h1 : IsTotal (String × Nat) (fun p q => q.2 ≤ p.2) :=
    ⟨fun a b => Nat.le_total b.2 a.2⟩
  haveI h2 : IsTrans (String × Nat) (fun p q => q.2 ≤ p.2) :=
    ⟨fun a b c hab hbc => le_trans hbc hab⟩
  exact List.sorted_insertionSort _ cs

theorem sublist_pair_of_mem {α : Type} [DecidableEq α] {l : List α} {p q : α}
    (hp : p ∈ l) (hq : q ∈ l) (hne : p ≠ q) :
    List.Sublist [p, q] l ∨ List.Sublist [q, p] l := by
  induction l with
  | nil => cases hp
  | cons a t ih =>
    by_cases hpa : p = a
    · subst hpa
      have hqt : q ∈ t := by
        rcases List.mem_cons.mp hq with h | h
        · exact absurd h.symm hne
        · exact h
      exact Or.inl (List.Sublist.cons₂ p (List.singleton_sublist.mpr hqt))
    · by_cases hqa : q = a
      · subst hqa
        have hpt : p ∈ t := by
          rcases List.mem_cons.mp hp with h | h
          · exact absurd h hpa
          · exact h
        exact Or.inr (List.Sublist.cons₂ q (List.singleton_sublist.mpr hpt))
      · have hpt : p ∈ t := by
          rcases List.mem_cons.mp hp with h | h
          · exact absurd h hpa
          · exact h
        have hqt : q ∈ t := by
          rcases List.mem_cons.mp hq with h | h
          · exact absurd h hqa
          · exact h
        rcases ih hpt hqt with h | h
        · exact Or.inl (h.cons a)
        · exact Or.inr (h.cons a)

theorem indexOf_lt_of_pair_sublist {α : Type} [DecidableEq α] :
    ∀ {l : List α} {p q : α}, l.Nodup → List.Sublist [p, q] l → p ≠ q →
      List.indexOf p l < List.indexOf q l := by
  intro l
  induction l with
  | nil =>
    intro p q _ h _
    exact absurd (h.subset (by simp)) (List.not_mem_nil p)
  | cons a t ih =>
    intro p q hnodup hsub hne
    rw [List.nodup_cons] at hnodup
    obtain ⟨hanotin, htnodup⟩ := hnodup
    cases hsub with
    | cons _ h =>
      have hpt : p ∈ t := h.subset (by simp)
      have hqt : q ∈ t := h.subset (by simp)
      have hap : a ≠ p := fun he => hanotin (he ▸ hpt)
      have haq : a ≠ q := fun he => hanotin (he ▸ hqt)
      rw [List.indexOf_cons_ne t hap, List.indexOf_cons_ne t haq]
      exact Nat.succ_lt_succ (ih htnodup h hne)
    | cons₂ _ h =>
      rw [List.indexOf_cons_self, List.indexOf_cons_ne t hne]
      exact Nat.succ_pos _

theorem eq_of_both_pair_sublists {α : Type} [DecidableEq α] {l : List α}
    {p q : α} (hl : l.Nodup) (h1 : List.Sublist [p, q] l)
    (h2 : List.Sublist [q, p] l) : p = q := by
  by_contra hne
  have i1 := indexOf_lt_of_pair_sublist hl h1 hne
  have i2 := indexOf_lt_of_pair_sublist hl h2 (fun he => hne he.symm)
  omega

theorem ties_first_encounter (cs : List (String × Nat)) (hnodup : cs.Nodup)
    {p q : String × Nat} (hsub : List.Sublist [p, q] (sortCountsDesc cs))
    (heq : p.2 = q.2) : List.Sublist [p, q] cs := by
  have hperm : List.Perm (sortCountsDesc cs) cs := List.perm_insertionSort _ cs
  have hsnodup : (sortCountsDesc cs).Nodup := hperm.nodup_iff.mpr hnodup
  by_cases hpq : p = q
  · subst hpq
    exfalso
    have hdup : ([p, p] : List (String × Nat)).Nodup := hsnodup.sublist hsub
    simp at hdup
  · have hmp : p ∈ cs := hperm.mem_iff.mp (hsub.subset (by simp))
    have hmq : q ∈ cs := hperm.mem_iff.mp (hsub.subset (by simp))
    rcases sublist_pair_of_mem hmp hmq hpq with h | h
    · exact h
    · exfalso
      have hqp : List.Sublist [q, p] (sortCountsDesc cs) :=
        List.pair_sublist_insertionSort (by omega) h
      exact hpq (eq_of_both_pair_sublists hsnodup hsub hqp)

theorem foldl_maxDist_mem (t : List Flight) :
    ∀ a : Flight,
      t.foldl (fun mx f => if mx.distance.getD 0 < f.distance.getD 0 then f
        else mx) a ∈ a :: t := by
  induction t with
  | nil => intro a; simp
  | cons b t ih =>
    intro a
    rw [List.foldl_cons]
    by_cases hc : a.distance.getD 0 < b.distance.getD 0
    · rw [if_pos hc]
      exact List.mem_cons_of_mem a (ih b)
    · rw [if_neg hc]
      rcases List.mem_cons.mp (ih a) with h | h
      · rw [h]
        exact List.mem_cons_self a _
      · exact List.mem_cons_of_mem a (List.mem_cons_of_mem b h)

theorem foldl_maxDist_ge (t : List Flight) :
    ∀ a : Flight, ∀ g ∈ a :: t,
      g.distance.getD 0 ≤
        (t.foldl (fun mx f => if mx.distance.getD 0 < f.distance.getD 0 then f
          else mx) a).distance.getD 0 := by
  induction t with
  | nil =>
    intro a g hg
    rcases List.mem_cons.mp hg with rfl | h
    · exact le_refl _
    · exact absurd h (List.not_mem_nil g)
  | cons b t ih =>
    intro a g hg
    rw [List.foldl_cons]
    have hbound : ∀ x : Flight, x = a ∨ x = b →
        x.distance.getD 0 ≤
          (if a.distance.getD 0 < b.distance.getD 0 then b else a).distance.getD 0 := by
      intro x hx
      by_cases hc : a.distance.getD 0 < b.distance.getD 0
      · rw [if_pos hc]
        rcases hx with rfl | rfl
        · omega
        · exact le_refl _
      · rw [if_neg hc]
        rcases hx with rfl | rfl
        · exact le_refl _
        · omega
    have htop := ih (if a.distance.getD 0 < b.distance.getD 0 then b else a)
    rcases List.mem_cons.mp hg with rfl | hg2
    · exact le_trans (hbound g (Or.inl rfl)) (htop _ (List.mem_cons_self _ _))
    · rcases List.mem_cons.mp hg2 with rfl | hg3
      · exact le_trans (hbound g (Or.inr rfl)) (htop _ (List.mem_cons_self _ _))
      · exact htop g (List.mem_cons_of_mem _ hg3)

theorem foldl_minDist_mem (t : List Flight) :
    ∀ a : Flight,
      t.foldl (fun mn f => if f.distance.getD 0 < mn.distance.getD 0 then f
        else mn) a ∈ a :: t := by
  induction t with
  | nil => intro a; simp
  | cons b t ih =>
    intro a
    rw [List.foldl_cons]
    by_cases hc : b.distance.getD 0 < a.distance.getD 0
    · rw [if_pos hc]
      exact List.mem_cons_of_mem a (ih b)
    · rw [if_neg hc]
      rcases List.mem_cons.mp (ih a) with h | h
      · rw [h]
        exact List.mem_cons_self a _
      · exact List.mem_cons_of_mem a (List.mem_cons_of_mem b h)

theorem foldl_minDist_le (t : List Flight) :
    ∀ a : Flight, ∀ g ∈ a :: t,
      (t.foldl (fun mn f => if f.distance.getD 0 < mn.distance.getD 0 then f
        else mn) a).distance.getD 0 ≤ g.distance.getD 0 := by
  induction t with
  | nil =>
    intro a g hg
    rcases List.mem_cons.mp hg with rfl | h
    · exact le_refl _
    · exact absurd h (List.not_mem_nil g)
  | cons b t ih =>
    intro a g hg
    rw [List.foldl_cons]
    have hbound : ∀ x : Flight, x = a ∨ x = b →
        (if b.distance.getD 0 < a.distance.getD 0 then b else a).distance.getD 0 ≤
          x.distance.getD 0 := by
      intro x hx
      by_cases hc : b.distance.getD 0 < a.distance.getD 0
      · rw [if_pos hc]
        rcases hx with rfl | rfl
        · omega
        · exact le_refl _
      · rw [if_neg hc]
        rcases hx with rfl | rfl
        · exact le_refl _
        · omega
    have htop := ih (if b.distance.getD 0 < a.distance.getD 0 then b else a)
    rcases List.mem_cons.mp hg with rfl | hg2
    · exact le_trans (htop _ (List.mem_cons_self _ _)) (hbound g (Or.inl rfl))
    · rcases List.mem_cons.mp hg2 with rfl | hg3
      · exact le_trans (htop _ (List.mem_cons_self _ _)) (hbound g (Or.inr rfl))
      · exact htop g (List.mem_cons_of_mem _ hg3)

/-- C9 counterexample: on a record whose airline is the empty string,
`uniqueAirlines` is 0, not the number of distinct airline values (which is 1):
empty-string values are excluded by the falsy guard.  And on a frequency tie
between the first-encountered airline `"Alpha"` and the airline `"7"`, the
array-index key `"7"` is enumerated by `Object.entries` before `"Alpha"`, so
the stable sort lists `"7"` first: ties are not broken by first-encountered
order. -/
theorem calculateStatistics_counts_and_ties_cex :
    (calculateStatistics [flightBlank]).uniqueAirlines = 0 ∧
    (([flightBlank].map (fun f => f.airline)).dedup).length = 1 ∧
    (calculateStatistics [flightBlank]).uniqueDestinations = 0 ∧
    (([flightBlank].map (fun f => f.destination)).dedup).length = 1 ∧
    ((calculateStatistics [flightAlpha, flight7]).mostFrequentAirlines =
      [("7", 1), ("Alpha", 1)]) ∧
    (keepFirst (([flightAlpha, flight7].map (fun f => f.airline)).filter
        (fun a => a ≠ "")) = ["Alpha", "7"]) := by
  refine ⟨?_, ?_, ?_, ?_, ?_, ?_⟩ <;> decide

theorem objectEntries_perm (l : List (String × Nat)) :
    List.Perm (objectEntries l) l := by
  unfold objectEntries
  have h1 : List.Perm
      ((l.filter (fun p => isArrayIndexKey p.1)).insertionSort
        (fun p q => keyNatVal p.1 ≤ keyNatVal q.1))
      (l.filter (fun p => isArrayIndexKey p.1)) :=
    List.perm_insertionSort _ _
  exact (h1.append_right _).trans (List.filter_append_perm _ l)

theorem objectEntries_order (l : List (String × Nat)) :
    (objectEntries l).Pairwise (fun p q =>
      (isArrayIndexKey p.1 = true → isArrayIndexKey q.1 = true →
        keyNatVal p.1 ≤ keyNatVal q.1) ∧
      (isArrayIndexKey p.1 = false → isArrayIndexKey q.1 = false) ∧
      (isArrayIndexKey p.1 = false → List.Sublist [p, q] l)) := by
  haveI hto : IsTotal (String × Nat) (fun p q => keyNatVal p.1 ≤ keyNatVal q.1) :=
    ⟨fun a b => Nat.le_total (keyNatVal a.1) (keyNatVal b.1)⟩
  haveI htr : IsTrans (String × Nat) (fun p q => keyNatVal p.1 ≤ keyNatVal q.1) :=
    ⟨fun a b c hab hbc => le_trans hab hbc⟩
  rw [List.pairwise_iff_forall_sublist]
  intro p q hsub
  unfold objectEntries at hsub
  rw [List.sublist_append_iff] at hsub
  obtain ⟨l1, l2, heq, h1, h2⟩ := hsub
  rcases l1 with _ | ⟨a, _ | ⟨b, l1t⟩⟩
  · rw [List.nil_append] at heq
    subst heq
    have hp : p ∈ l.filter (fun p => ! isArrayIndexKey p.1) := h2.subset (by simp)
    have hq : q ∈ l.filter (fun p => ! isArrayIndexKey p.1) := h2.subset (by simp)
    rw [List.mem_filter, Bool.not_eq_true'] at hp hq
    refine ⟨fun hpi _ => ?_, fun _ => hq.2, fun _ => h2.trans (List.filter_sublist l)⟩
    rw [hp.2] at hpi
    cases hpi
  · injection heq with h3 h4
    subst h3
    subst h4
    have hp : p ∈ (l.filter (fun p => isArrayIndexKey p.1)).insertionSort
        (fun p q => keyNatVal p.1 ≤ keyNatVal q.1) := h1.subset (by simp)
    rw [List.mem_insertionSort, List.mem_filter] at hp
    have hq : q ∈ l.filter (fun p => ! isArrayIndexKey p.1) := h2.subset (by simp)
    rw [List.mem_filter, Bool.not_eq_true'] at hq
    refine ⟨fun _ hqi => ?_, fun hpf => ?_, fun hpf => ?_⟩
    · rw [hq.2] at hqi
      cases hqi
    · rw [hp.2] at hpf
      cases hpf
    · rw [hp.2] at hpf
      cases hpf
  · injection heq with h3 h5
    injection h5 with h4 h6
    subst h3
    subst h4
    have hnil : l1t = [] ∧ l2 = [] := by
      constructor
      · cases hl : l1t with
        | nil => rfl
        | cons x xs =>
          rw [hl] at h6
          cases h6
      · cases hl2 : l2 with
        | nil => rfl
        | cons x xs =>
          rw [hl2] at h6
          rcases List.append_eq_nil.mp h6.symm with ⟨_, h7⟩
          cases h7
    obtain ⟨hl1t, _⟩ := hnil
    subst hl1t
    have hp : p ∈ (l.filter (fun p => isArrayIndexKey p.1)).insertionSort
        (fun p q => keyNatVal p.1 ≤ keyNatVal q.1) := h1.subset (by simp)
    rw [List.mem_insertionSort, List.mem_filter] at hp
    have hsorted := List.sorted_insertionSort
      (fun p q : String × Nat => keyNatVal p.1 ≤ keyNatVal q.1)
      (l.filter (fun p => isArrayIndexKey p.1))
    refine ⟨fun _ _ => List.pairwise_iff_forall_sublist.mp hsorted h1, fun hpf => ?_,
      fun hpf => ?_⟩
    · rw [hp.2] at hpf
      cases hpf
    · rw [hp.2] at hpf
      cases hpf

theorem calculateStatistics_eq (fs : List Flight) (hfs : fs ≠ []) :
    calculateStatistics fs =
      { totalFlights := fs.length
        totalDistance := (fs.map (fun f => f.distance.getD 0)).sum
        uniqueAirlines := (airlineCounts fs).length
        uniqueDestinations :=
          ((fs.map (fun f => f.destination)).filter (fun a => a ≠ "")).dedup.length
        firstFlight :=
          ((fs.insertionSort (fun a b => dateKey a ≤ dateKey b)).head?).map
            (fun f => f.date)
        lastFlight :=
          ((fs.insertionSort (fun a b => dateKey a ≤ dateKey b)).getLast?).map
            (fun f => f.date)
        mostFrequentAirlines :=
          (sortCountsDesc (objectEntries (airlineCounts fs))).take 5
        longestFlight :=
          match fs.filter hasPosDistance with
          | [] => none
          | h :: t => some (t.foldl (fun mx f =>
              if mx.distance.getD 0 < f.distance.getD 0 then f else mx) h)
        shortestFlight :=
          match fs.filter hasPosDistance with
          | [] => none
          | h :: t => some (t.foldl (fun mn f =>
              if f.distance.getD 0 < mn.distance.getD 0 then f else mn) h) } := by
  simp [calculateStatistics, hfs]

/-- C9 (amended): `calculateStatistics` is a pure function such that: the
empty list yields zero counts and absent optional fields; `totalFlights` is
the length; `totalDistance` sums the defined distances with missing distance
counted as 0; `uniqueAirlines`/`uniqueDestinations` count distinct NON-EMPTY
values (empty strings are excluded by the falsy guard);
`mostFrequentAirlines` is the top 5 of the per-airline frequencies, sorted
descending by count via a stable sort over the `Object.entries` enumeration
order, so ties by count keep that enumeration order: airline names that are
canonical array indices (digit strings, no leading zero, value below
2^32 - 1) come first in ascending numeric order, and all other airlines
follow in first-encountered order; `longestFlight`/`shortestFlight` are
extremal among the records with a defined positive distance, absent when
there is none. -/
theorem calculateStatistics_spec (fs : List Flight) :
    (calculateStatistics [] =
      { totalFlights := 0, totalDistance := 0, uniqueAirlines := 0,
        uniqueDestinations := 0, firstFlight := none, lastFlight := none,
        mostFrequentAirlines := [], longestFlight := none,
        shortestFlight := none }) ∧
    ((calculateStatistics fs).totalFlights = fs.length) ∧
    ((calculateStatistics fs).totalDistance =
      (fs.map (fun f => f.distance.getD 0)).sum) ∧
    ((calculateStatistics fs).uniqueAirlines =
      ((fs.map (fun f => f.airline)).filter (fun a => a ≠ "")).dedup.length) ∧
    ((calculateStatistics fs).uniqueDestinations =
      ((fs.map (fun f => f.destination)).filter (fun a => a ≠ "")).dedup.length) ∧
    ((calculateStatistics fs).mostFrequentAirlines.length =
      min 5 (((fs.map (fun f => f.airline)).filter (fun a => a ≠ "")).dedup.length)) ∧
    (∀ p ∈ (calculateStatistics fs).mostFrequentAirlines,
      p.1 ≠ "" ∧ p.1 ∈ fs.map (fun f => f.airline) ∧ p.2 = airlineFreq fs p.1) ∧
    ((calculateStatistics fs).mostFrequentAirlines.Pairwise
      (fun p q => q.2 ≤ p.2 ∧
        (p.2 = q.2 → List.Sublist [p, q] (objectEntries (airlineCounts fs))))) ∧
    ((objectEntries (airlineCounts fs)).Pairwise (fun p q =>
      (isArrayIndexKey p.1 = true → isArrayIndexKey q.1 = true →
        keyNatVal p.1 ≤ keyNatVal q.1) ∧
      (isArrayIndexKey p.1 = false → isArrayIndexKey q.1 = false) ∧
      (isArrayIndexKey p.1 = false →
        List.Sublist [p, q] (airlineCounts fs)))) ∧
    ((airlineCounts fs).map Prod.fst =
      keepFirst ((fs.map (fun f => f.airline)).filter (fun a => a ≠ ""))) ∧
    (∀ p ∈ airlineCounts fs,
      p ∉ (calculateStatistics fs).mostFrequentAirlines →
      ∀ q ∈ (calculateStatistics fs).mostFrequentAirlines, p.2 ≤ q.2) ∧
    (∀ f : Flight, hasPosDistance f = true ↔ ∃ d, f.distance = some d ∧ 0 < d) ∧
    (fs.filter hasPosDistance = [] →
      (calculateStatistics fs).longestFlight = none ∧
      (calculateStatistics fs).shortestFlight = none) ∧
    (fs.filter hasPosDistance ≠ [] →
      (∃ l ∈ fs.filter hasPosDistance,
        (calculateStatistics fs).longestFlight = some l ∧
        ∀ g ∈ fs.filter hasPosDistance,
          g.distance.getD 0 ≤ l.distance.getD 0) ∧
      (∃ m ∈ fs.filter hasPosDistance,
        (calculateStatistics fs).shortestFlight = some m ∧
        ∀ g ∈ fs.filter hasPosDistance,
          m.distance.getD 0 ≤ g.distance.getD 0)) := by
  have hposchar : ∀ f : Flight,
      hasPosDistance f = true ↔ ∃ d, f.distance = some d ∧ 0 < d := by
    intro f
    unfold hasPosDistance
    cases hd : f.distance <;> simp [hd]
  by_cases hfs : fs = []
  · subst hfs
    refine ⟨rfl, rfl, rfl, by decide, by decide, by decide, by decide,
      List.Pairwise.nil, List.Pairwise.nil, rfl, ?_, hposchar,
      fun _ => ⟨rfl, rfl⟩, fun hne => absurd rfl hne⟩
    intro p hp
    exact absurd hp (List.not_mem_nil p)
  · have heq := calculateStatistics_eq fs hfs
    have hcnodup : (airlineCounts fs).Nodup :=
      (airlineCounts_keys_nodup fs).of_map
    have hperm2 : List.Perm (objectEntries (airlineCounts fs)) (airlineCounts fs) :=
      objectEntries_perm (airlineCounts fs)
    have hoenodup : (objectEntries (airlineCounts fs)).Nodup :=
      hperm2.nodup_iff.mpr hcnodup
    have hperm : List.Perm (sortCountsDesc (objectEntries (airlineCounts fs)))
        (objectEntries (airlineCounts fs)) := List.perm_insertionSort _ _
    have htake : List.Sublist
        ((sortCountsDesc (objectEntries (airlineCounts fs))).take 5)
        (sortCountsDesc (objectEntries (airlineCounts fs))) := List.take_sublist 5 _
    refine ⟨rfl, by rw [heq], by rw [heq], ?_, by rw [heq], ?_, ?_, ?_, ?_, ?_, ?_,
      hposchar, ?_, ?_⟩
    · rw [heq]
      exact airlineCounts_length_eq_dedup fs
    · rw [heq]
      show ((sortCountsDesc (objectEntries (airlineCounts fs))).take 5).length = _
      rw [List.length_take, hperm.length_eq, hperm2.length_eq,
        airlineCounts_length_eq_dedup fs]
    · rw [heq]
      intro p hp
      have hps : p ∈ sortCountsDesc (objectEntries (airlineCounts fs)) :=
        htake.subset hp
      have hpo : p ∈ objectEntries (airlineCounts fs) := hperm.mem_iff.mp hps
      have hpc : p ∈ airlineCounts fs := hperm2.mem_iff.mp hpo
      obtain ⟨hne, hcount⟩ := airlineCounts_counts fs p hpc
      have hkey : p.1 ∈ (airlineCounts fs).map Prod.fst :=
        List.mem_map.mpr ⟨p, hpc, rfl⟩
      exact ⟨hne, (airlineCounts_keys_mem fs p.1 hne).mp hkey, hcount⟩
    · rw [heq]
      show ((sortCountsDesc (objectEntries (airlineCounts fs))).take 5).Pairwise _
      refine List.Pairwise.and ?_ ?_
      · exact (sortCountsDesc_sorted (objectEntries (airlineCounts fs))).sublist htake
      · rw [List.pairwise_iff_forall_sublist]
        intro p q hsub heq2
        exact ties_first_encounter (objectEntries (airlineCounts fs)) hoenodup
          (hsub.trans htake) heq2
    · exact objectEntries_order (airlineCounts fs)
    · have h := airlineCounts_keys_keepFirst fs []
      simpa [airlineCounts, keepFirst] using h
    · rw [heq]
      intro p hpc hnot q hq
      have hps : p ∈ sortCountsDesc (objectEntries (airlineCounts fs)) :=
        hperm.mem_iff.mpr (hperm2.mem_iff.mpr hpc)
      have hsplit := List.take_append_drop 5
        (sortCountsDesc (objectEntries (airlineCounts fs)))
      have hpair := sortCountsDesc_sorted (objectEntries (airlineCounts fs))
      rw [← hsplit] at hpair
      rw [← hsplit] at hps
      rcases List.mem_append.mp hps with h1 | h2
      · exact absurd h1 hnot
      · exact (List.pairwise_append.mp hpair).2.2 q hq p h2
    · intro hfilter
      rw [heq]
      constructor
      · dsimp only
        rw [hfilter]
      · dsimp only
        rw [hfilter]
    · intro hfilter
      obtain ⟨h, t, hht⟩ := List.exists_cons_of_ne_nil hfilter
      rw [heq]
      constructor
      · refine ⟨t.foldl (fun mx f =>
          if mx.distance.getD 0 < f.distance.getD 0 then f else mx) h, ?_, ?_, ?_⟩
        · rw [hht]
          exact foldl_maxDist_mem t h
        · dsimp only
          rw [hht]
        · intro g hg
          rw [hht] at hg
          exact foldl_maxDist_ge t h g hg
      · refine ⟨t.foldl (fun mn f =>
          if f.distance.getD 0 < mn.distance.getD 0 then f else mn) h, ?_, ?_, ?_⟩
        · rw [hht]
          exact foldl_minDist_mem t h
        · dsimp only
          rw [hht]
        · intro g hg
          rw [hht] at hg
          exact foldl_minDist_le t h g hg

theorem validateFlightData_rules_witness :
    msgDateFuture ∈ validateFlightData todayFix formTomorrow :=
  ((validateFlightData_rules todayFix formTomorrow).2.2.2.2.2.1).mpr
    ⟨by decide, ⟨encodeDate 2024 1 11, by decide, by decide⟩⟩

theorem calculateStatistics_spec_witness :
    (calculateStatistics [flightA, flightB]).totalFlights = 2 := by
  have h := (calculateStatistics_spec [flightA, flightB]).2.1
  simpa using h
